import Mathlib

/-!
A shallow embedding of `main.cpp` of fight-monster.

The C++ program is a single translation unit.  Its functions are embedded as
Lean functions over explicit state:

* `int` values are modelled by `Int`.  Signed overflow is undefined behaviour
  in C++, so the model describes the executions in which no `int` overflows.
* `getRandomNumber` is embedded twice; the value returned by `std::rand()` is an
  explicit argument.  `getRandomNumberDouble` is the computation in machine
  arithmetic: a 32-bit `int` that wraps around, and IEEE 754 binary64 `double`
  operations rounded to nearest, ties to even.  `getRandomNumber` is the same
  expression in exact arithmetic (`ℚ`), and it is the one the functions of the
  game call.  The two agree whenever no operation rounds or overflows
  (`getRandomNumberDouble_eq`), in particular on the two calls of the program,
  `getRandomNumber(0, 1)` and `getRandomNumber(0, MAX_TYPES - 1)`, when
  `RAND_MAX + 1` is a power of two (`getRandomNumberDouble_calls`); they differ
  on large ranges (`getRandomNumberDouble_rounds`, `getRandomNumberDouble_wraps`).
* Reference parameters (`Player&`, `Monster&`) become arguments that are
  returned again.
* `std::cin` is a list of unread characters, `std::cout` a list of the strings
  written so far, and `std::rand()` reads the next element of a sequence.
* A loop that never returns is modelled by the result `none`.
-/

namespace FightMonster

/-! ## Random number source -/

/-- The constant `fraction` of `getRandomNumber`, `1.0 / (RAND_MAX + 1.0)`, in
exact arithmetic. -/
def fraction (RAND_MAX : Nat) : ℚ := 1 / ((RAND_MAX : ℚ) + 1)

/-- The conversion `static_cast<int>` applied to a floating-point value:
the fractional part is discarded (truncation toward zero). -/
def staticCastInt (x : ℚ) : Int := if 0 ≤ x then ⌊x⌋ else ⌈x⌉

/-- The function `getRandomNumber(min, max)` in exact arithmetic, where `r` is
the value returned by its call of `std::rand()`:
`min + static_cast<int>((max - min + 1) * (std::rand() * fraction))`.
The machine computation is `getRandomNumberDouble`; it has the same value where
no `double` operation rounds and no `int` overflows, as in the calls this
program makes. -/
def getRandomNumber (RAND_MAX : Nat) (min max : Int) (r : Nat) : Int :=
  min + staticCastInt (((max - min + 1 : Int) : ℚ) * ((r : ℚ) * fraction RAND_MAX))

/-! ## Creature model -/

/-- The class `Creature`. -/
structure Creature where
  m_name : String
  m_symbol : Char
  m_health : Int
  m_damage : Int
  m_gold : Int

namespace Creature

def getName (c : Creature) : String := c.m_name
def getSymbol (c : Creature) : Char := c.m_symbol
def getHealth (c : Creature) : Int := c.m_health
def getDamage (c : Creature) : Int := c.m_damage
def getGold (c : Creature) : Int := c.m_gold

/-- The member `reduceHealth`: `m_health -= health`. -/
def reduceHealth (c : Creature) (health : Int) : Creature :=
  { c with m_health := c.m_health - health }

/-- The member `isDead`: `m_health <= 0`. -/
def isDead (c : Creature) : Bool := decide (c.m_health ≤ 0)

/-- The member `addGold`: `m_gold += gold`. -/
def addGold (c : Creature) (gold : Int) : Creature :=
  { c with m_gold := c.m_gold + gold }

end Creature

/-- The class `Player : public Creature`, with the extra member `m_level`. -/
structure Player extends Creature where
  m_level : Int

namespace Player

/-- The constructor `Player(name)`: `Creature{ name, '@', 10, 1, 0 }` and
`m_level{ 1 }`. -/
def create (name : String) : Player :=
  { m_name := name, m_symbol := '@', m_health := 10, m_damage := 1, m_gold := 0,
    m_level := 1 }

/-- The member `levelUp`: `++m_level; ++m_damage;`. -/
def levelUp (p : Player) : Player :=
  { p with m_level := p.m_level + 1, m_damage := p.m_damage + 1 }

def getLevel (p : Player) : Int := p.m_level

/-- The member `hasWon`: `m_level >= 20`. -/
def hasWon (p : Player) : Bool := decide (p.m_level ≥ 20)

/-- The member `hasLost`: `m_health <= 0`. -/
def hasLost (p : Player) : Bool := decide (p.m_health ≤ 0)

end Player

/-- The enumeration `Monster::Type`. -/
inductive MonsterType where
  | DRAGON
  | ORC
  | SLIME
  | MAX_TYPES
  deriving DecidableEq, Repr

namespace MonsterType

/-- The integer value of an enumerator. -/
def toNat : MonsterType → Nat
  | DRAGON => 0
  | ORC => 1
  | SLIME => 2
  | MAX_TYPES => 3

/-- The conversion `static_cast<Type>(i)`; it is defined only for the values
of the enumeration. -/
def ofInt (i : Int) : Option MonsterType :=
  if i = 0 then some DRAGON
  else if i = 1 then some ORC
  else if i = 2 then some SLIME
  else if i = 3 then some MAX_TYPES
  else none

end MonsterType

/-- The struct `Monster::MonsterData`, a row of the catalog. -/
structure MonsterData where
  name : String
  symbol : Char
  health : Int
  damage : Int
  gold : Int

/-- The table `Monster::monsterData`, an array of `MAX_TYPES` rows. -/
def monsterData : List MonsterData :=
  [ { name := "dragon", symbol := 'D', health := 20, damage := 4, gold := 100 },
    { name := "orc", symbol := 'o', health := 4, damage := 2, gold := 25 },
    { name := "slime", symbol := 's', health := 1, damage := 1, gold := 10 } ]

/-- The class `Monster : public Creature`. -/
structure Monster extends Creature

namespace Monster

/-- The constructor `Monster(type)`: every member is read from
`monsterData[type]`.  The result is `none` when `type` is not an index of the
table (an out-of-bounds access in the source). -/
def create (type : MonsterType) : Option Monster :=
  match monsterData[type.toNat]? with
  | none => none
  | some d =>
    some { m_name := d.name, m_symbol := d.symbol, m_health := d.health,
           m_damage := d.damage, m_gold := d.gold }

/-- The function `Monster::getRandomMonster`, where `r` is the value returned by
`std::rand()`: `static_cast<Type>(getRandomNumber(0, MAX_TYPES - 1))`. -/
def getRandomMonster (RAND_MAX : Nat) (r : Nat) : Option MonsterType :=
  MonsterType.ofInt (getRandomNumber RAND_MAX 0 ((MonsterType.MAX_TYPES.toNat : Int) - 1) r)

end Monster

/-! ## Console and generator state -/

/-- The state of the process outside the two combatants: the sequence of values
`std::rand()` returns (`randSeq`), how many of them have been drawn
(`randCalls`), and the strings written to `std::cout` so far. -/
structure World where
  randSeq : Nat → Nat
  randCalls : Nat
  cout : List String

namespace World

/-- A call of `std::rand()`: the next value of the sequence, and the state in
which it has been drawn. -/
def stdRand (w : World) : Nat × World :=
  (w.randSeq w.randCalls, { w with randCalls := w.randCalls + 1 })

/-- The statement `std::cout << s`. -/
def print (w : World) (s : String) : World :=
  { w with cout := w.cout ++ [s] }

end World

/-- The classification `std::isspace` in the default locale, which the
extraction `std::cin >> choice` uses to skip leading whitespace. -/
def isSpace (c : Char) : Bool :=
  c = ' ' || c = '\t' || c = '\n' || c = '\x0b' || c = '\x0c' || c = '\r'

/-! ## Output -/

/-- The function `printTable`; the result is the text it writes. -/
def printTable (player : Player) (monster : Monster) : String :=
  "________________________________________"
    ++ "________________________________________\n"
    ++ "|Player:" ++ player.getName ++ "|\t"
    ++ "|Health:" ++ toString player.getHealth ++ "|\t"
    ++ "|Gold:" ++ toString player.getGold ++ "|\t"
    ++ "|Damage:" ++ toString player.getDamage ++ "|\t"
    ++ "|Level:" ++ toString player.getLevel ++ "|"
    ++ "\n----------------------------------------"
    ++ "----------------------------------------\n"
    ++ "|Monster:" ++ monster.getName ++ "|\t"
    ++ "|Health:" ++ toString monster.getHealth ++ "|\t"
    ++ "|Gold:" ++ toString monster.getGold ++ "|\t"
    ++ "|Damage:" ++ toString monster.getDamage ++ "|\t"
    ++ "|Symbol:" ++ String.singleton monster.getSymbol ++ "|"
    ++ "\n````````````````````````````````````````"
    ++ "````````````````````````````````````````\n"

/-! ## Combat resolver -/

/-- The function `attackPlayer(player, monster)`: the player's health is reduced
by the monster's damage. -/
def attackPlayer (player : Player) (monster : Monster) (w : World) :
    Player × Monster × World :=
  let player : Player := { player with m_health := player.m_health - monster.getDamage }
  let w := w.print ("The " ++ monster.getName ++ " hit you for "
    ++ toString monster.getDamage ++ " damage.\n")
  (player, monster, w)

/-- The function `attackMonster(player, monster)`: the player hits first; a
monster that dies is looted and the player levels up, a monster that survives
attacks back. -/
def attackMonster (player : Player) (monster : Monster) (w : World) :
    Player × Monster × World :=
  let monster : Monster := { monster with m_health := monster.m_health - player.getDamage }
  let w := w.print ("you hit the " ++ monster.getName ++ " for "
    ++ toString player.getDamage ++ " damage.\n")
  if monster.getHealth ≤ 0 then
    let w := w.print ("You killed the " ++ monster.getName ++ ".\n")
    let player := player.levelUp
    let w := w.print ("You are now level " ++ toString player.getLevel ++ ".\n")
    let player : Player := { player with m_gold := player.m_gold + monster.getGold }
    let w := w.print ("You found " ++ toString monster.getGold ++ " gold.\n")
    let monster : Monster := { monster with m_gold := 0 }
    (player, monster, w)
  else
    attackPlayer player monster w

/-! ## Encounter loop -/

/-- The two checks that end the body of the `while (true)` loop of
`fightMonster`: `break` (written `some false`, after which `fightMonster`
returns `false`) when the player is dead, `break` when the monster is dead, and
otherwise the next iteration (written `none`). -/
def deathChecks (s : Player × Monster × World) : Option Bool × Player × Monster × World :=
  let (player, monster, w) := s
  if player.getHealth ≤ 0 then (some false, player, monster, w)
  else if monster.getHealth ≤ 0 then (some false, player, monster, w)
  else (none, player, monster, w)

/-- One pass through the body of the `while (true)` loop of `fightMonster`
after the extraction `std::cin >> choice`.  The first component tells how the
pass leaves the body: `some true` is `return true`, `some false` is `break`,
and `none` is the next iteration. -/
def fightTurn (RAND_MAX : Nat) (choice : Char) (player : Player) (monster : Monster)
    (w : World) : Option Bool × Player × Monster × World :=
  if choice = 'f' then
    deathChecks (attackMonster player monster w)
  else if choice = 'r' then
    let (r, w) := w.stdRand
    if getRandomNumber RAND_MAX 0 1 r ≠ 0 then
      (some true, player, monster, w.print ("You escaped the " ++ monster.getName ++ ".\n"))
    else
      let w := w.print ("You couldn't escaped the " ++ monster.getName ++ ".\n")
      deathChecks (attackPlayer player monster w)
  else
    deathChecks (player, monster, w)

/-- What a returning call of `fightMonster` leaves behind: its return value,
the player, the monster as it was when the loop was left, the unread input and
the rest of the process state. -/
structure Encounter where
  escaped : Bool
  player : Player
  monster : Monster
  cin : List Char
  world : World

/-- The `while (true)` loop of `fightMonster`, by recursion on the unread
input.  The extraction `std::cin >> choice` skips whitespace and reads one
character.  At the end of the input the extraction fails and leaves `choice`
at its initial value `char{}`; every later extraction fails in the same way, so
a pass that does not leave the loop then repeats forever: the result is
`none`. -/
def fightLoop (RAND_MAX : Nat) :
    List Char → Player → Monster → World → Option Encounter
  | [], player, monster, w =>
    match fightTurn RAND_MAX '\x00' player monster (w.print "(R)un or (F)ight: ") with
    | (some b, player, monster, w) => some ⟨b, player, monster, [], w⟩
    | (none, _, _, _) => none
  | c :: cin, player, monster, w =>
    if isSpace c then fightLoop RAND_MAX cin player monster w
    else
      match fightTurn RAND_MAX c player monster (w.print "(R)un or (F)ight: ") with
      | (some b, player, monster, w) => some ⟨b, player, monster, cin, w⟩
      | (none, player, monster, w) => fightLoop RAND_MAX cin player monster w

/-- The text `fightMonster` writes when the monster appears: the `switch` on
the monster's symbol. -/
def encounterText (monster : Monster) : String :=
  "\n[You have encountered a/an "
    ++ (if monster.getSymbol = 'D' then "dragon (D).]\n"
        else if monster.getSymbol = 'o' then "orc (o).]\n"
        else if monster.getSymbol = 's' then "slime (s).]\n"
        else "")

/-- The function `fightMonster(player)`: one randomly generated monster is
created, the table is printed and the loop runs.  The result is `none` when
the call does not return. -/
def fightMonster (RAND_MAX : Nat) (cin : List Char) (player : Player) (w : World) :
    Option Encounter :=
  let (r, w) := w.stdRand
  match (Monster.getRandomMonster RAND_MAX r).bind Monster.create with
  | none => none
  | some monster =>
    let w := w.print (encounterText monster)
    let w := w.print (printTable player monster)
    fightLoop RAND_MAX cin player monster w

/-! ## Game loop -/

/-- How `main` ends: with the death message or with the victory message. -/
inductive Ending where
  | died (level gold : Int)
  | won (gold : Int)
  deriving DecidableEq, Repr

/-- The message `main` writes before it leaves its loop. -/
def Ending.message : Ending → String
  | .died level gold =>
    "You died at level " ++ toString level ++ " and with " ++ toString gold ++ " gold.\n"
  | .won gold => "You Won! you had " ++ toString gold ++ " gold.\n"

/-- The end of the program: which message was written, and the final state. -/
structure GameOver where
  ending : Ending
  player : Player
  cin : List Char
  world : World

/-- The body of the loop of `main` after `fightMonster` has returned `e`.
The argument `again` is the next iteration of the loop (`continue`). -/
def afterEncounter (again : List Char → Player → World → Option GameOver)
    (e : Encounter) : Option GameOver :=
  if e.escaped then again e.cin e.player e.world
  else if e.player.getHealth ≤ 0 then
    let ending := Ending.died e.player.getLevel e.player.getGold
    some ⟨ending, e.player, e.cin, e.world.print ending.message⟩
  else if e.player.hasWon then
    let ending := Ending.won e.player.getGold
    some ⟨ending, e.player, e.cin, e.world.print ending.message⟩
  else again e.cin e.player e.world

/-- The `while (true)` loop of `main`, run for at most `fuel` encounters.  The
result is `none` when an encounter does not return or the fuel runs out. -/
def mainLoop (RAND_MAX : Nat) : Nat → List Char → Player → World → Option GameOver
  | 0, _, _, _ => none
  | fuel + 1, cin, player, w =>
    match fightMonster RAND_MAX cin player w with
    | none => none
    | some e => afterEncounter (mainLoop RAND_MAX fuel) e

/-- The extraction `std::cin >> playerName`: leading whitespace is skipped and
the characters up to the next whitespace are read. -/
def readToken (cin : List Char) : String × List Char :=
  let cin := cin.dropWhile isSpace
  (String.mk (cin.takeWhile (fun c => !isSpace c)), cin.dropWhile (fun c => !isSpace c))

/-- The function `main`: the first value of the generator is discarded, the
name is read, the player is created and the loop runs.  Every encounter that
returns has read a character, so `cin.length + 1` encounters are enough
(`mainLoop_fuel_enough`). -/
def main (RAND_MAX : Nat) (cin : List Char) (w : World) : Option GameOver :=
  let (_, w) := w.stdRand
  let w := w.print "Enter your name: "
  let (playerName, cin) := readToken cin
  let w := w.print ("Welcome, " ++ playerName ++ "\n")
  let player := Player.create playerName
  mainLoop RAND_MAX (cin.length + 1) cin player w

/-- The states in which the loop of `fightMonster` issues its prompt: the first
prompt comes right after a monster has been created from the catalog (for any
player), and a further prompt follows every pass through the loop body that
leaves neither by `return` nor by `break`. -/
inductive AtPrompt (RAND_MAX : Nat) : Player → Monster → World → Prop
  | spawn (player : Player) (type : MonsterType) (monster : Monster) (w : World) :
      Monster.create type = some monster → AtPrompt RAND_MAX player monster w
  | turn (choice : Char) (player player' : Player) (monster monster' : Monster)
      (w w' : World) :
      AtPrompt RAND_MAX player monster w →
      fightTurn RAND_MAX choice player monster (w.print "(R)un or (F)ight: ")
        = (none, player', monster', w') →
      AtPrompt RAND_MAX player' monster' w'

/-! ## Specification vocabulary for the encounter loop -/

/-- The last character `fightMonster` read from `cin` was the choice 'r' and
the draw made for it let the player escape: `cin` is some already-read prefix,
then 'r', then the input `e.cin` that is still unread on return; and the last
value drawn (after the `calls` values drawn before the loop) passes the test
`if (getRandomNumber(0, 1))`. -/
def LastChoiceEscaped (RAND_MAX : Nat) (cin : List Char) (randSeq : Nat → Nat)
    (calls : Nat) (e : Encounter) : Prop :=
  ∃ pre : List Char, cin = pre ++ 'r' :: e.cin ∧ calls < e.world.randCalls ∧
    getRandomNumber RAND_MAX 0 1 (randSeq (e.world.randCalls - 1)) ≠ 0

/-! ## Counting generator outputs -/

/-- The outputs of the generator, among the `RAND_MAX + 1` possible ones, on
which `getRandomNumber(min, max)` returns `v` in exact arithmetic. -/
def drawsGiving (RAND_MAX : Nat) (min max v : Int) : Finset Nat :=
  (Finset.range (RAND_MAX + 1)).filter (fun r => getRandomNumber RAND_MAX min max r = v)

/-- The outputs of the generator on which the test `if (getRandomNumber(0, 1))` of
`fightMonster` succeeds in exact arithmetic. -/
def drawsEscaping (RAND_MAX : Nat) : Finset Nat :=
  (Finset.range (RAND_MAX + 1)).filter (fun r => getRandomNumber RAND_MAX 0 1 r ≠ 0)

/-! ## Concrete values used to instantiate the theorems -/

/-- A fresh player named "Hero". -/
def hero : Player := Player.create "Hero"

/-- The dragon of the catalog. -/
def dragon : Monster :=
  { m_name := "dragon", m_symbol := 'D', m_health := 20, m_damage := 4, m_gold := 100 }

/-- The orc of the catalog. -/
def orc : Monster :=
  { m_name := "orc", m_symbol := 'o', m_health := 4, m_damage := 2, m_gold := 25 }

/-- The slime of the catalog. -/
def slime : Monster :=
  { m_name := "slime", m_symbol := 's', m_health := 1, m_damage := 1, m_gold := 10 }

/-- A process state in which `std::rand()` always returns `r`, nothing has been
drawn and nothing has been written. -/
def constWorld (r : Nat) : World := { randSeq := fun _ => r, randCalls := 0, cout := [] }

/-- A player of level 19 whose health is down to 1. -/
def veteran : Player :=
  { m_name := "Hero", m_symbol := '@', m_health := 1, m_damage := 19, m_gold := 500,
    m_level := 19 }

/-- The encounter of a fresh "Hero" who runs from a slime at once: the
generator returns 32767 on every call, which selects the slime and lets the
player escape. -/
def escapedEncounter : Encounter :=
  { escaped := true, player := hero, monster := slime, cin := [],
    world := ((((constWorld 32767).stdRand.2.print (encounterText slime)).print
      (printTable hero slime)).print "(R)un or (F)ight: ").stdRand.2.print
        ("You escaped the " ++ slime.getName ++ ".\n") }

/-- A player with the starting stats whose health is down to 1. -/
def wounded : Player :=
  { m_name := "Hero", m_symbol := '@', m_health := 1, m_damage := 1, m_gold := 0,
    m_level := 1 }

/-! ## The states a run of the game goes through -/

/-- The states in which the loop of `fightMonster`, entered with `player`,
`monster` and `w` on the unread input `cin`, issues its prompt, in order.  The
recursion is that of `fightLoop`.  At the end of the input the loop prompts
once more; when it does not end there it prompts again and again in that same
state, which is listed once. -/
def promptStates (RAND_MAX : Nat) :
    List Char → Player → Monster → World → List (Player × Monster × World)
  | [], player, monster, w => [(player, monster, w)]
  | c :: cin, player, monster, w =>
    if isSpace c then promptStates RAND_MAX cin player monster w
    else
      (player, monster, w) ::
        match fightTurn RAND_MAX c player monster (w.print "(R)un or (F)ight: ") with
        | (some _, _, _, _) => []
        | (none, player, monster, w) => promptStates RAND_MAX cin player monster w

/-- Whether the loop of `main` goes round again after `fightMonster` has
returned `e`: after an escape (`continue`), and when neither of the two tests
that end the game succeeds. -/
def continues (e : Encounter) : Bool :=
  e.escaped || (!decide (e.player.getHealth ≤ 0) && !e.player.hasWon)

/-- One call of `fightMonster` in a run of the loop of `main`: the player and
the unread input at the call, the archetype drawn and the monster created from
it, the process state in which the loop of `fightMonster` is entered, and the
result of the call (`none` when it does not return). -/
structure EncounterRun where
  player : Player
  type : MonsterType
  monster : Monster
  cin : List Char
  world : World
  result : Option Encounter

/-- The calls of `fightMonster` made by the loop of `main`, in order, for at
most `fuel` encounters.  The recursion is that of `mainLoop`, with the call of
`fightMonster` written out. -/
def gameEncounters (RAND_MAX : Nat) :
    Nat → List Char → Player → World → List EncounterRun
  | 0, _, _, _ => []
  | fuel + 1, cin, player, w =>
    match Monster.getRandomMonster RAND_MAX (w.randSeq w.randCalls) with
    | none => []
    | some type =>
      match Monster.create type with
      | none => []
      | some monster =>
        let w1 := (w.stdRand.2.print (encounterText monster)).print
          (printTable player monster)
        match fightLoop RAND_MAX cin player monster w1 with
        | none => [⟨player, type, monster, cin, w1, none⟩]
        | some e =>
          ⟨player, type, monster, cin, w1, some e⟩ ::
            (if continues e then gameEncounters RAND_MAX fuel e.cin e.player e.world
             else [])

/-- The monster of this encounter was killed: the call returned with the
monster dead. -/
def EncounterRun.killed (r : EncounterRun) : Bool :=
  match r.result with
  | some e => e.monster.isDead
  | none => false

/-- The number of monsters killed in the encounters `rs`. -/
def kills (rs : List EncounterRun) : Nat := rs.countP EncounterRun.killed

/-- The calls of `fightMonster` made by `main` on the input `cin`. -/
def mainEncounters (RAND_MAX : Nat) (cin : List Char) (w : World) : List EncounterRun :=
  let (_, w) := w.stdRand
  let w := w.print "Enter your name: "
  let (playerName, cin) := readToken cin
  let w := w.print ("Welcome, " ++ playerName ++ "\n")
  let player := Player.create playerName
  gameEncounters RAND_MAX (cin.length + 1) cin player w

/-- The condition on the player under which the loop of `main` calls
`fightMonster`: health from 1 to 10, damage equal to level, level from 1 to
19. -/
def GameInv (p : Player) : Prop :=
  1 ≤ p.m_health ∧ p.m_health ≤ 10 ∧ p.m_damage = p.m_level ∧ 1 ≤ p.m_level ∧
    p.m_level ≤ 19

/-- The process state in which a fresh "Hero" meets the slime that the
generator output 32767 selects. -/
def heroSlimeWorld : World :=
  ((constWorld 32767).stdRand.2.print (encounterText slime)).print (printTable hero slime)

/-- The single encounter of the game of a fresh "Hero" on the input 'f' when
the generator returns 32767 on every call: the player meets a slime and
fights. -/
def heroSlimeRun : EncounterRun :=
  { player := hero, type := MonsterType.SLIME, monster := slime, cin := ['f'],
    world := heroSlimeWorld, result := fightLoop 32767 ['f'] hero slime heroSlimeWorld }

/-- What the call of `fightMonster` in `heroSlimeRun` returns: the slime is
killed by the first hit. -/
def heroSlimeEncounter : Encounter :=
  { escaped := false,
    player := (attackMonster hero slime (heroSlimeWorld.print "(R)un or (F)ight: ")).1,
    monster := (attackMonster hero slime (heroSlimeWorld.print "(R)un or (F)ight: ")).2.1,
    cin := [],
    world := (attackMonster hero slime (heroSlimeWorld.print "(R)un or (F)ight: ")).2.2 }

/-! ## The arithmetic of the machine: 32-bit `int` and IEEE 754 `double` -/

/-- The value an `int` computation leaves in a 32-bit two's-complement `int`:
the result modulo `2^32`, taken between `-2^31` and `2^31 - 1`.  (Signed
overflow is undefined in C++; the common compilers wrap.) -/
def wrapInt (z : Int) : Int := (z + 2 ^ 31) % 2 ^ 32 - 2 ^ 31

/-- The binary exponent of a rational `x ≠ 0`: the integer `e` with
`2^e ≤ |x| < 2^(e+1)`. -/
def binaryExponent (x : ℚ) : Int :=
  if (2 : ℚ) ^ ((Nat.log2 x.num.natAbs : Int) - (Nat.log2 x.den : Int)) ≤ |x| then
    (Nat.log2 x.num.natAbs : Int) - (Nat.log2 x.den : Int)
  else (Nat.log2 x.num.natAbs : Int) - (Nat.log2 x.den : Int) - 1

/-- Rounding to the nearest integer, ties to the even one. -/
def roundHalfEven (q : ℚ) : Int :=
  if q - ⌊q⌋ < 1 / 2 then ⌊q⌋
  else if 1 / 2 < q - ⌊q⌋ then ⌊q⌋ + 1
  else if ⌊q⌋ % 2 = 0 then ⌊q⌋ else ⌊q⌋ + 1

/-- The IEEE 754 binary64 value nearest to `x` (round to nearest, ties to
even; 53 significant bits), which is what a `double` operation with the exact
result `x` returns.  The values of this program are far inside the normal
range, so overflow and subnormal numbers are not modelled. -/
def roundDouble (x : ℚ) : ℚ :=
  if x = 0 then 0
  else (roundHalfEven (x / 2 ^ (binaryExponent x - 52)) : ℚ) * 2 ^ (binaryExponent x - 52)

/-- The function `getRandomNumber(min, max)` in machine arithmetic, where `r`
is the value returned by `std::rand()`: `fraction` is
`1.0 / (RAND_MAX + 1.0)`, and the result is
`min + static_cast<int>((max - min + 1) * (std::rand() * fraction))`, with
every `int` operation wrapped to 32 bits and every `double` operation,
including the conversions of `RAND_MAX`, of `std::rand()` and of
`max - min + 1` to `double`, rounded. -/
def getRandomNumberDouble (RAND_MAX : Nat) (min max : Int) (r : Nat) : Int :=
  wrapInt (min + wrapInt (staticCastInt (roundDouble
    (roundDouble (wrapInt (wrapInt (max - min) + 1) : ℚ)
      * roundDouble (roundDouble (r : ℚ)
          * roundDouble (1 / roundDouble (roundDouble (RAND_MAX : ℚ) + 1)))))))

/-- The outputs of the generator, among the `RAND_MAX + 1` possible ones, on
which `getRandomNumber(min, max)` returns `v` in machine arithmetic. -/
def drawsGivingDouble (RAND_MAX : Nat) (min max v : Int) : Finset Nat :=
  (Finset.range (RAND_MAX + 1)).filter
    (fun r => getRandomNumberDouble RAND_MAX min max r = v)

/-- The outputs of the generator on which the test `if (getRandomNumber(0, 1))`
of `fightMonster` succeeds in machine arithmetic. -/
def drawsEscapingDouble (RAND_MAX : Nat) : Finset Nat :=
  (Finset.range (RAND_MAX + 1)).filter (fun r => getRandomNumberDouble RAND_MAX 0 1 r ≠ 0)

/-! ## The combat resolver -/

/-- Claim C1.  When the player's hit brings the monster's health to 0 or below,
`attackMonster` gives the player the monster's gold, leaves the monster with no
gold, raises the player's level and damage by one each and leaves the player's
health as it was: the monster does not hit back. -/
theorem attackMonster_kill (player : Player) (monster : Monster) (w : World)
    (h : monster.m_health - player.m_damage ≤ 0) :
    (attackMonster player monster w).1.m_gold = player.m_gold + monster.m_gold ∧
    (attackMonster player monster w).2.1.m_gold = 0 ∧
    (attackMonster player monster w).1.m_level = player.m_level + 1 ∧
    (attackMonster player monster w).1.m_damage = player.m_damage + 1 ∧
    (attackMonster player monster w).1.m_health = player.m_health ∧
    (attackMonster player monster w).2.1.m_health = monster.m_health - player.m_damage := by
  simp [attackMonster, Creature.getHealth, Creature.getDamage, Creature.getGold,
    Player.levelUp, h]

theorem attackMonster_kill_witness :
    slime.m_health - hero.m_damage ≤ 0 ∧
    (attackMonster hero slime (constWorld 0)).1.m_gold = hero.m_gold + slime.m_gold ∧
    (attackMonster hero slime (constWorld 0)).2.1.m_gold = 0 ∧
    (attackMonster hero slime (constWorld 0)).1.m_level = hero.m_level + 1 ∧
    (attackMonster hero slime (constWorld 0)).1.m_damage = hero.m_damage + 1 ∧
    (attackMonster hero slime (constWorld 0)).1.m_health = hero.m_health ∧
    (attackMonster hero slime (constWorld 0)).2.1.m_health
      = slime.m_health - hero.m_damage :=
  ⟨by decide, attackMonster_kill hero slime (constWorld 0) (by decide)⟩

/-- Claim C2.  When the monster survives the player's hit, `attackMonster` lets
it hit back in the same call: the player's health drops by the monster's
damage, the monster's health by the player's damage, and the player's gold,
level and damage and the monster's gold and damage stay as they were. -/
theorem attackMonster_survive (player : Player) (monster : Monster) (w : World)
    (h : monster.m_health - player.m_damage > 0) :
    (attackMonster player monster w).1.m_health = player.m_health - monster.m_damage ∧
    (attackMonster player monster w).2.1.m_health = monster.m_health - player.m_damage ∧
    (attackMonster player monster w).1.m_gold = player.m_gold ∧
    (attackMonster player monster w).1.m_level = player.m_level ∧
    (attackMonster player monster w).1.m_damage = player.m_damage ∧
    (attackMonster player monster w).2.1.m_gold = monster.m_gold ∧
    (attackMonster player monster w).2.1.m_damage = monster.m_damage := by
  have h' : ¬ monster.m_health - player.m_damage ≤ 0 := not_le.mpr h
  simp [attackMonster, attackPlayer, Creature.getHealth, Creature.getDamage, h']

theorem attackMonster_survive_witness :
    orc.m_health - hero.m_damage > 0 ∧
    (attackMonster hero orc (constWorld 0)).1.m_health = hero.m_health - orc.m_damage ∧
    (attackMonster hero orc (constWorld 0)).2.1.m_health = orc.m_health - hero.m_damage ∧
    (attackMonster hero orc (constWorld 0)).1.m_gold = hero.m_gold ∧
    (attackMonster hero orc (constWorld 0)).1.m_level = hero.m_level ∧
    (attackMonster hero orc (constWorld 0)).1.m_damage = hero.m_damage ∧
    (attackMonster hero orc (constWorld 0)).2.1.m_gold = orc.m_gold ∧
    (attackMonster hero orc (constWorld 0)).2.1.m_damage = orc.m_damage :=
  ⟨by decide, attackMonster_survive hero orc (constWorld 0) (by decide)⟩

/-! ## The monster catalog -/

/-- Claim C8.  Constructing a monster from DRAGON, ORC or SLIME gives the
creature of the catalog row: dragon 'D' 20/4/100, orc 'o' 4/2/25 and slime 's'
1/1/10 (name, symbol, health/damage/gold). -/
theorem Monster_create_catalog :
    Monster.create .DRAGON = some
      { m_name := "dragon", m_symbol := 'D', m_health := 20, m_damage := 4, m_gold := 100 } ∧
    Monster.create .ORC = some
      { m_name := "orc", m_symbol := 'o', m_health := 4, m_damage := 2, m_gold := 25 } ∧
    Monster.create .SLIME = some
      { m_name := "slime", m_symbol := 's', m_health := 1, m_damage := 1, m_gold := 10 } :=
  ⟨rfl, rfl, rfl⟩

/-! ## Auxiliary facts about the process state and one pass of the loop -/

@[simp]
theorem World.print_randCalls (w : World) (s : String) :
    (w.print s).randCalls = w.randCalls := rfl

@[simp]
theorem World.print_randSeq (w : World) (s : String) :
    (w.print s).randSeq = w.randSeq := rfl

theorem catalog_health_pos (type : MonsterType) (monster : Monster)
    (h : Monster.create type = some monster) : 0 < monster.m_health := by
  cases type <;> simp [Monster.create, monsterData, MonsterType.toNat] at h <;>
    subst h <;> decide

theorem deathChecks_none (s : Player × Monster × World) (p : Player) (m : Monster)
    (w : World) (h : deathChecks s = (none, p, m, w)) :
    s = (p, m, w) ∧ 0 < p.m_health ∧ 0 < m.m_health := by
  obtain ⟨p0, m0, w0⟩ := s
  simp only [deathChecks, Creature.getHealth] at h
  split_ifs at h with h1 h2
  · simp at h
  · simp at h
  · simp only [Prod.mk.injEq, true_and] at h
    obtain ⟨rfl, rfl, rfl⟩ := h
    exact ⟨rfl, not_le.mp h1, not_le.mp h2⟩

/-- The body of the loop with the draw of `std::rand()` written out. -/
theorem fightTurn_eq (RAND_MAX : Nat) (c : Char) (p : Player) (m : Monster) (w : World) :
    fightTurn RAND_MAX c p m w =
      if c = 'f' then deathChecks (attackMonster p m w)
      else if c = 'r' then
        if getRandomNumber RAND_MAX 0 1 (w.randSeq w.randCalls) ≠ 0 then
          (some true, p, m,
            World.print { w with randCalls := w.randCalls + 1 }
              ("You escaped the " ++ m.getName ++ ".\n"))
        else
          deathChecks (attackPlayer p m
            (World.print { w with randCalls := w.randCalls + 1 }
              ("You couldn't escaped the " ++ m.getName ++ ".\n")))
      else deathChecks (p, m, w) := rfl

theorem fightTurn_none_alive (RAND_MAX : Nat) (c : Char) (p p' : Player) (m m' : Monster)
    (w w' : World) (h : fightTurn RAND_MAX c p m w = (none, p', m', w')) :
    0 < p'.m_health ∧ 0 < m'.m_health := by
  rw [fightTurn_eq] at h
  split_ifs at h with h1 h2 h3
  · exact (deathChecks_none _ _ _ _ h).2
  · simp at h
  · exact (deathChecks_none _ _ _ _ h).2
  · exact (deathChecks_none _ _ _ _ h).2

/-- The monster is alive whenever the loop prompts. -/
theorem AtPrompt.monster_alive {RAND_MAX : Nat} {p : Player} {m : Monster} {w : World}
    (h : AtPrompt RAND_MAX p m w) : 0 < m.m_health := by
  induction h with
  | spawn player type monster w hc => exact catalog_health_pos type monster hc
  | turn c player player' monster monster' w w' _ ht _ =>
    exact (fightTurn_none_alive _ _ _ _ _ _ _ _ ht).2

theorem mainLoop_succ (RAND_MAX fuel : Nat) (cin : List Char) (player : Player) (w : World) :
    mainLoop RAND_MAX (fuel + 1) cin player w
      = (fightMonster RAND_MAX cin player w).bind (afterEncounter (mainLoop RAND_MAX fuel)) := by
  rw [mainLoop]
  cases fightMonster RAND_MAX cin player w <;> rfl

theorem coin_32767_zero : getRandomNumber 32767 0 1 0 = 0 := by
  simp [getRandomNumber, staticCastInt]

theorem coin_32767_max : getRandomNumber 32767 0 1 32767 = 1 := by
  norm_num [getRandomNumber, fraction, staticCastInt, Int.floor_eq_iff]

/-- A fight choice of a living player that kills the monster ends the loop. -/
theorem fightLoop_fight_kill (RAND_MAX : Nat) (cin : List Char) (player : Player)
    (monster : Monster) (w : World) (hh : 0 < player.m_health)
    (hk : monster.m_health - player.m_damage ≤ 0) :
    fightLoop RAND_MAX ('f' :: cin) player monster w
      = some ⟨false, (attackMonster player monster (w.print "(R)un or (F)ight: ")).1,
          (attackMonster player monster (w.print "(R)un or (F)ight: ")).2.1, cin,
          (attackMonster player monster (w.print "(R)un or (F)ight: ")).2.2⟩ := by
  have hs : isSpace 'f' = false := by decide
  have hp : ¬ player.m_health ≤ 0 := not_le.mpr hh
  rw [fightLoop, hs, fightTurn_eq]
  simp [deathChecks, attackMonster, Creature.getHealth, Creature.getDamage, hk, hp,
    Player.levelUp]

/-- The call `fightMonster(player)` when its draw creates `monster`. -/
theorem fightMonster_spawn (RAND_MAX : Nat) (cin : List Char) (player : Player) (w : World)
    (monster : Monster)
    (h : (Monster.getRandomMonster RAND_MAX (w.randSeq w.randCalls)).bind Monster.create
      = some monster) :
    fightMonster RAND_MAX cin player w
      = fightLoop RAND_MAX cin player monster
          ((w.stdRand.2.print (encounterText monster)).print (printTable player monster)) := by
  unfold fightMonster
  show (match (Monster.getRandomMonster RAND_MAX (w.randSeq w.randCalls)).bind
      Monster.create with
    | none => none
    | some monster => fightLoop RAND_MAX cin player monster
        ((w.stdRand.2.print (encounterText monster)).print (printTable player monster))) = _
  rw [h]

/-- The call `fightMonster(player)` when its draw creates no monster. -/
theorem fightMonster_no_spawn (RAND_MAX : Nat) (cin : List Char) (player : Player)
    (w : World)
    (h : (Monster.getRandomMonster RAND_MAX (w.randSeq w.randCalls)).bind Monster.create
      = none) :
    fightMonster RAND_MAX cin player w = none := by
  unfold fightMonster
  show (match (Monster.getRandomMonster RAND_MAX (w.randSeq w.randCalls)).bind
      Monster.create with
    | none => none
    | some monster => fightLoop RAND_MAX cin player monster
        ((w.stdRand.2.print (encounterText monster)).print (printTable player monster))) = _
  rw [h]

/-! ## The encounter loop: running away -/

/-- Claim C4.  At a prompt of the encounter loop, the choice 'r' with a coin
draw of 0 leaves the monster as it was and takes the monster's damage from the
player's health, while the player's gold, level and damage stay; one value has
been drawn; the encounter then returns false if the player's health is 0 or
below, and otherwise the loop prompts again in the new state and goes on with
the rest of the input. -/
theorem run_failure (RAND_MAX : Nat) (cin : List Char) (player : Player)
    (monster : Monster) (w : World) (hp : AtPrompt RAND_MAX player monster w)
    (hcoin : getRandomNumber RAND_MAX 0 1 (w.randSeq w.randCalls) = 0) :
    ∃ (player' : Player) (w' : World),
      fightTurn RAND_MAX 'r' player monster (w.print "(R)un or (F)ight: ")
        = (if player'.m_health ≤ 0 then some false else none, player', monster, w') ∧
      player'.m_health = player.m_health - monster.m_damage ∧
      player'.m_gold = player.m_gold ∧
      player'.m_level = player.m_level ∧
      player'.m_damage = player.m_damage ∧
      w'.randCalls = w.randCalls + 1 ∧
      fightLoop RAND_MAX ('r' :: cin) player monster w
        = (if player'.m_health ≤ 0 then some ⟨false, player', monster, cin, w'⟩
           else fightLoop RAND_MAX cin player' monster w') ∧
      (0 < player'.m_health → AtPrompt RAND_MAX player' monster w') := by
  have hm : ¬ monster.m_health ≤ 0 := not_le.mpr hp.monster_alive
  have ht : fightTurn RAND_MAX 'r' player monster (w.print "(R)un or (F)ight: ")
      = (if (attackPlayer player monster (World.print
              { w.print "(R)un or (F)ight: " with randCalls := w.randCalls + 1 }
              ("You couldn't escaped the " ++ monster.getName ++ ".\n"))).1.m_health ≤ 0
           then some false else none,
         (attackPlayer player monster (World.print
              { w.print "(R)un or (F)ight: " with randCalls := w.randCalls + 1 }
              ("You couldn't escaped the " ++ monster.getName ++ ".\n"))).1, monster,
         (attackPlayer player monster (World.print
              { w.print "(R)un or (F)ight: " with randCalls := w.randCalls + 1 }
              ("You couldn't escaped the " ++ monster.getName ++ ".\n"))).2.2) := by
    rw [fightTurn_eq]
    simp only [World.print_randCalls, World.print_randSeq, hcoin]
    simp [deathChecks, attackPlayer, Creature.getHealth, Creature.getDamage, hm]
    split_ifs <;> simp
  refine ⟨_, _, ht, ?_, ?_, ?_, ?_, ?_, ?_, ?_⟩
  · simp [attackPlayer, Creature.getDamage]
  · simp [attackPlayer]
  · simp [attackPlayer]
  · simp [attackPlayer]
  · simp [attackPlayer]
  · have hs : isSpace 'r' = false := by decide
    rw [fightLoop, hs]
    simp only [Bool.false_eq_true, if_false, ht]
    split_ifs <;> simp
  · intro halive
    refine AtPrompt.turn 'r' player _ monster monster w _ hp ?_
    rw [ht, if_neg (not_le.mpr halive)]

theorem run_failure_witness :
    AtPrompt 32767 hero orc (constWorld 0) ∧
    getRandomNumber 32767 0 1 ((constWorld 0).randSeq (constWorld 0).randCalls) = 0 ∧
    ∃ (player' : Player) (w' : World),
      fightTurn 32767 'r' hero orc ((constWorld 0).print "(R)un or (F)ight: ")
        = (if player'.m_health ≤ 0 then some false else none, player', orc, w') ∧
      player'.m_health = hero.m_health - orc.m_damage ∧
      player'.m_gold = hero.m_gold ∧
      player'.m_level = hero.m_level ∧
      player'.m_damage = hero.m_damage ∧
      w'.randCalls = (constWorld 0).randCalls + 1 ∧
      fightLoop 32767 ('r' :: []) hero orc (constWorld 0)
        = (if player'.m_health ≤ 0 then some ⟨false, player', orc, [], w'⟩
           else fightLoop 32767 [] player' orc w') ∧
      (0 < player'.m_health → AtPrompt 32767 player' orc w') :=
  ⟨AtPrompt.spawn hero .ORC orc (constWorld 0) rfl, coin_32767_zero,
    run_failure 32767 [] hero orc (constWorld 0)
      (AtPrompt.spawn hero .ORC orc (constWorld 0) rfl) coin_32767_zero⟩

/-- Claim C5.  For every player and monster, the choice 'r' with a coin draw of
1 makes the encounter return true at once: the player and the monster are
returned exactly as they were, the rest of the input is unread, and one value
has been drawn. -/
theorem run_success (RAND_MAX : Nat) (cin : List Char) (player : Player)
    (monster : Monster) (w : World)
    (hcoin : getRandomNumber RAND_MAX 0 1 (w.randSeq w.randCalls) = 1) :
    ∃ w' : World,
      fightLoop RAND_MAX ('r' :: cin) player monster w
        = some ⟨true, player, monster, cin, w'⟩ ∧
      w'.randCalls = w.randCalls + 1 := by
  have hs : isSpace 'r' = false := by decide
  refine ⟨World.print { w.print "(R)un or (F)ight: " with randCalls := w.randCalls + 1 }
    ("You escaped the " ++ monster.getName ++ ".\n"), ?_, rfl⟩
  rw [fightLoop, hs, fightTurn_eq]
  simp only [World.print_randCalls, World.print_randSeq, hcoin]
  simp

theorem run_success_witness :
    getRandomNumber 32767 0 1
      ((constWorld 32767).randSeq (constWorld 32767).randCalls) = 1 ∧
    ∃ w' : World,
      fightLoop 32767 ('r' :: []) hero dragon (constWorld 32767)
        = some ⟨true, hero, dragon, [], w'⟩ ∧
      w'.randCalls = (constWorld 32767).randCalls + 1 :=
  ⟨coin_32767_max, run_success 32767 [] hero dragon (constWorld 32767) coin_32767_max⟩

/-! ## The game loop -/

/-- Claim C6.  The loop of `main` runs `fightMonster` and then decides: after an
escape it goes on to the next encounter whatever the player's health and level;
after a return of false with health 0 or below it ends with the death message
for the player's level and gold (also when the level is 20 or more); after a
return of false with positive health and level 20 or more it ends with the
victory message for the player's gold; otherwise it goes on. -/
theorem game_decision (RAND_MAX : Nat)
    (again : List Char → Player → World → Option GameOver) (e : Encounter) :
    (∀ (fuel : Nat) (cin : List Char) (player : Player) (w : World),
      fightMonster RAND_MAX cin player w = some e →
      mainLoop RAND_MAX (fuel + 1) cin player w
        = afterEncounter (mainLoop RAND_MAX fuel) e) ∧
    (e.escaped = true → afterEncounter again e = again e.cin e.player e.world) ∧
    (e.escaped = false → e.player.m_health ≤ 0 →
      afterEncounter again e
        = some ⟨Ending.died e.player.m_level e.player.m_gold, e.player, e.cin,
            e.world.print (Ending.died e.player.m_level e.player.m_gold).message⟩) ∧
    (e.escaped = false → 0 < e.player.m_health → 20 ≤ e.player.m_level →
      afterEncounter again e
        = some ⟨Ending.won e.player.m_gold, e.player, e.cin,
            e.world.print (Ending.won e.player.m_gold).message⟩) ∧
    (e.escaped = false → 0 < e.player.m_health → e.player.m_level < 20 →
      afterEncounter again e = again e.cin e.player e.world) := by
  refine ⟨?_, ?_, ?_, ?_, ?_⟩
  · intro fuel cin player w h
    rw [mainLoop_succ, h]
    rfl
  · intro h
    simp [afterEncounter, h]
  · intro h hd
    simp [afterEncounter, h, Creature.getHealth, hd, Player.getLevel, Creature.getGold]
  · intro h hh hl
    simp [afterEncounter, h, Creature.getHealth, not_le.mpr hh, Player.hasWon, hl,
      Creature.getGold]
  · intro h hh hl
    simp [afterEncounter, h, Creature.getHealth, not_le.mpr hh, Player.hasWon, not_le.mpr hl]

/-- Claim C7.  A player of level 19 with positive health whose fight action
kills the monster is at level 20 when the encounter returns false, and the loop
of `main` ends there with the victory message for the player's gold, the loot
included, whatever the next iteration would have done; this holds at any point
of an encounter and in particular when the monster has just been created. -/
theorem win_at_level_19 (RAND_MAX : Nat)
    (again : List Char → Player → World → Option GameOver) (cin : List Char)
    (player : Player) (monster : Monster) (w : World)
    (hl : player.m_level = 19) (hh : 0 < player.m_health)
    (hk : monster.m_health - player.m_damage ≤ 0) :
    (∃ (player' : Player) (monster' : Monster) (w' : World),
      fightLoop RAND_MAX ('f' :: cin) player monster w
        = some ⟨false, player', monster', cin, w'⟩ ∧
      player'.m_level = 20 ∧
      player'.m_health = player.m_health ∧
      player'.m_gold = player.m_gold + monster.m_gold ∧
      afterEncounter again ⟨false, player', monster', cin, w'⟩
        = some ⟨Ending.won (player.m_gold + monster.m_gold), player', cin,
            w'.print (Ending.won (player.m_gold + monster.m_gold)).message⟩) ∧
    (∀ (fuel : Nat) (w0 : World),
      (Monster.getRandomMonster RAND_MAX (w0.randSeq w0.randCalls)).bind Monster.create
        = some monster →
      ∃ (player' : Player) (w' : World),
        mainLoop RAND_MAX (fuel + 1) ('f' :: cin) player w0
          = some ⟨Ending.won (player.m_gold + monster.m_gold), player', cin, w'⟩ ∧
        player'.m_level = 20 ∧
        player'.m_health = player.m_health ∧
        player'.m_gold = player.m_gold + monster.m_gold) := by
  have hp : ¬ player.m_health ≤ 0 := not_le.mpr hh
  have hafter : ∀ (v : World) (again' : List Char → Player → World → Option GameOver),
      afterEncounter again'
        ⟨false, (attackMonster player monster v).1, (attackMonster player monster v).2.1,
          cin, (attackMonster player monster v).2.2⟩
      = some ⟨Ending.won (player.m_gold + monster.m_gold),
          (attackMonster player monster v).1, cin,
          ((attackMonster player monster v).2.2).print
            (Ending.won (player.m_gold + monster.m_gold)).message⟩ := by
    intro v again'
    simp [afterEncounter, attackMonster, Creature.getHealth, Creature.getDamage,
      Creature.getGold, hk, hp, Player.levelUp, Player.hasWon, hl]
  have hstats : ∀ v : World,
      (attackMonster player monster v).1.m_level = 20 ∧
      (attackMonster player monster v).1.m_health = player.m_health ∧
      (attackMonster player monster v).1.m_gold = player.m_gold + monster.m_gold := by
    intro v
    simp [attackMonster, Creature.getHealth, Creature.getDamage, Creature.getGold, hk,
      Player.levelUp, hl]
  constructor
  · exact ⟨_, _, _, fightLoop_fight_kill RAND_MAX cin player monster w hh hk,
      (hstats _).1, (hstats _).2.1, (hstats _).2.2, hafter _ again⟩
  · intro fuel w0 hspawn
    rw [mainLoop_succ, fightMonster_spawn RAND_MAX _ player w0 monster hspawn,
      fightLoop_fight_kill RAND_MAX cin player monster _ hh hk]
    exact ⟨_, _, hafter _ _, hstats _⟩

theorem win_at_level_19_witness :
    veteran.m_level = 19 ∧ 0 < veteran.m_health ∧
    slime.m_health - veteran.m_damage ≤ 0 ∧
    (∃ (player' : Player) (monster' : Monster) (w' : World),
      fightLoop 32767 ('f' :: []) veteran slime (constWorld 32767)
        = some ⟨false, player', monster', [], w'⟩ ∧
      player'.m_level = 20 ∧
      player'.m_health = veteran.m_health ∧
      player'.m_gold = veteran.m_gold + slime.m_gold ∧
      afterEncounter (fun _ _ _ => none) ⟨false, player', monster', [], w'⟩
        = some ⟨Ending.won (veteran.m_gold + slime.m_gold), player', [],
            w'.print (Ending.won (veteran.m_gold + slime.m_gold)).message⟩) ∧
    (∀ (fuel : Nat) (w0 : World),
      (Monster.getRandomMonster 32767 (w0.randSeq w0.randCalls)).bind Monster.create
        = some slime →
      ∃ (player' : Player) (w' : World),
        mainLoop 32767 (fuel + 1) ('f' :: []) veteran w0
          = some ⟨Ending.won (veteran.m_gold + slime.m_gold), player', [], w'⟩ ∧
        player'.m_level = 20 ∧
        player'.m_health = veteran.m_health ∧
        player'.m_gold = veteran.m_gold + slime.m_gold) :=
  ⟨rfl, by decide, by decide,
    win_at_level_19 32767 (fun _ _ _ => none) [] veteran slime (constWorld 32767) rfl
      (by decide) (by decide)⟩

/-! ## The random number source -/

/-- For a range that is not empty the draw is the integer quotient
`(max - min + 1) * r / (RAND_MAX + 1)` above `min`. -/
theorem getRandomNumber_eq_div (RAND_MAX : Nat) (min max : Int) (r : Nat)
    (h : min ≤ max) :
    getRandomNumber RAND_MAX min max r
      = min + ((max - min + 1) * (r : Int)) / ((RAND_MAX : Int) + 1) := by
  have hx : ((max - min + 1 : Int) : ℚ) * ((r : ℚ) * fraction RAND_MAX)
      = (((max - min + 1) * (r : Int) : Int) : ℚ) / ((RAND_MAX + 1 : Nat) : ℚ) := by
    simp only [fraction]
    push_cast
    ring
  have hnn : (0 : ℚ) ≤ (((max - min + 1) * (r : Int) : Int) : ℚ) / ((RAND_MAX + 1 : Nat) : ℚ) := by
    apply div_nonneg
    · have : 0 ≤ (max - min + 1) * (r : Int) :=
        mul_nonneg (by omega) (Int.ofNat_nonneg r)
      exact_mod_cast this
    · exact Nat.cast_nonneg _
  rw [getRandomNumber, hx, staticCastInt, if_pos hnn, Rat.floor_intCast_div_natCast]
  push_cast
  rfl

/-- The outputs `r` of the generator on which the quotient `n * r / M` is `k` form
the interval from `⌈k * M / n⌉` to `⌈(k + 1) * M / n⌉`. -/
theorem quotient_fibre (M n k : Nat) (hn : 0 < n) (hk : k < n) :
    (Finset.range M).filter (fun r => n * r / M = k)
      = Finset.Ico ((k * M + n - 1) / n) (((k + 1) * M + n - 1) / n) := by
  rcases Nat.eq_zero_or_pos M with hM | hM
  · subst hM
    simp
  have key : ∀ j r : Nat, (j * M + n - 1) / n ≤ r ↔ j * M ≤ n * r := by
    intro j r
    rw [← Nat.lt_succ_iff, Nat.div_lt_iff_lt_mul hn, Nat.succ_mul, Nat.mul_comm r n]
    omega
  have key2 : ∀ j r : Nat, r < (j * M + n - 1) / n ↔ n * r < j * M := by
    intro j r
    rw [← not_le, key j r, not_le]
  ext r
  simp only [Finset.mem_filter, Finset.mem_range, Finset.mem_Ico, key k r, key2 (k + 1) r]
  constructor
  · rintro ⟨_, h⟩
    have h1 : k ≤ n * r / M := h.ge
    have h2 : n * r / M < k + 1 := by omega
    rw [Nat.le_div_iff_mul_le hM] at h1
    rw [Nat.div_lt_iff_lt_mul hM] at h2
    exact ⟨h1, h2⟩
  · rintro ⟨h1, h2⟩
    refine ⟨?_, ?_⟩
    · by_contra hr
      have hr' : M ≤ r := not_lt.mp hr
      have h3 : (k + 1) * M ≤ n * r := Nat.mul_le_mul (by omega) hr'
      omega
    · apply le_antisymm
      · have : n * r / M < k + 1 := (Nat.div_lt_iff_lt_mul hM).mpr h2
        omega
      · exact (Nat.le_div_iff_mul_le hM).mpr h1

theorem ceil_div_of_mul (n P : Nat) (hn : 0 < n) : (P * n + n - 1) / n = P := by
  apply Nat.div_eq_of_lt_le
  · omega
  · rw [Nat.succ_mul]
    omega

theorem quotient_fibre_card (M n k : Nat) (hn : 0 < n) (hk : k < n) :
    M / n ≤ ((Finset.range M).filter (fun r => n * r / M = k)).card ∧
    ((Finset.range M).filter (fun r => n * r / M = k)).card ≤ M / n + 1 ∧
    (n ∣ M → ((Finset.range M).filter (fun r => n * r / M = k)).card = M / n) := by
  rw [quotient_fibre M n k hn hk, Nat.card_Ico]
  have hdiv : ∀ x : Nat, x / n * n ≤ x ∧ x < x / n * n + n := by
    intro x
    refine ⟨Nat.div_mul_le_self x n, ?_⟩
    have := Nat.div_add_mod x n
    have hmod := Nat.mod_lt x hn
    rw [Nat.mul_comm (x / n) n]
    omega
  have hk1 : (k + 1) * M = k * M + M := by ring
  refine ⟨?_, ?_, ?_⟩
  · obtain ⟨a1, a2⟩ := hdiv (k * M + n - 1)
    obtain ⟨b1, b2⟩ := hdiv ((k + 1) * M + n - 1)
    obtain ⟨q1, q2⟩ := hdiv M
    rw [hk1] at b1 b2 ⊢
    generalize (k * M + n - 1) / n = A at a1 a2 ⊢
    generalize (k * M + M + n - 1) / n = B at b1 b2 ⊢
    generalize M / n = q at q1 q2 ⊢
    by_contra hlt
    have h3 : (B - A + 1) * n ≤ q * n := Nat.mul_le_mul_right n (by omega)
    rcases Nat.le_total A B with hAB | hAB
    · obtain ⟨d, rfl⟩ := Nat.exists_eq_add_of_le hAB
      simp only [Nat.add_sub_cancel_left, Nat.add_mul, Nat.one_mul] at h3 b1 b2
      omega
    · have h4 : B * n ≤ A * n := Nat.mul_le_mul_right n hAB
      have h5 : B - A = 0 := by omega
      simp only [h5, Nat.zero_add, Nat.one_mul] at h3
      omega
  · obtain ⟨a1, a2⟩ := hdiv (k * M + n - 1)
    obtain ⟨b1, b2⟩ := hdiv ((k + 1) * M + n - 1)
    obtain ⟨q1, q2⟩ := hdiv M
    rw [hk1] at b1 b2 ⊢
    generalize (k * M + n - 1) / n = A at a1 a2 ⊢
    generalize (k * M + M + n - 1) / n = B at b1 b2 ⊢
    generalize M / n = q at q1 q2 ⊢
    by_contra hlt
    have h2 : A + q + 2 ≤ B := by omega
    have h3 : (A + q + 2) * n ≤ B * n := Nat.mul_le_mul_right n h2
    simp only [Nat.add_mul] at h3
    omega
  · rintro ⟨c, rfl⟩
    have e1 : k * (n * c) = k * c * n := by ring
    have e2 : (k + 1) * (n * c) = (k * c + c) * n := by ring
    rw [e1, e2, ceil_div_of_mul n _ hn, ceil_div_of_mul n _ hn, Nat.mul_div_cancel_left c hn]
    omega


theorem drawsGiving_eq (RAND_MAX n k : Nat) (min max v : Int)
    (hn : max - min + 1 = (n : Int)) (hk : v - min = (k : Int)) (hmin : min ≤ max) :
    drawsGiving RAND_MAX min max v
      = (Finset.range (RAND_MAX + 1)).filter (fun r => n * r / (RAND_MAX + 1) = k) := by
  unfold drawsGiving
  apply Finset.filter_congr
  intro r _
  rw [getRandomNumber_eq_div RAND_MAX min max r hmin, hn]
  have e : (n : Int) * (r : Int) / ((RAND_MAX : Int) + 1)
      = ((n * r / (RAND_MAX + 1) : Nat) : Int) := by
    push_cast
    rfl
  rw [e]
  constructor
  · intro h
    have : ((n * r / (RAND_MAX + 1) : Nat) : Int) = (k : Int) := by omega
    exact_mod_cast this
  · intro h
    rw [h]
    omega

/-- In exact arithmetic, for `min <= max` every value `v` between `min` and `max`
is the result on exactly `floor(M / n)` or `ceil(M / n)` of the `M = RAND_MAX + 1`
generator outputs, where `n = max - min + 1`, and on exactly `M / n` of them when
`n` divides `M`; when `M` is even the result of the range `0 .. 1` is not zero
on exactly half of the outputs. -/
theorem drawsGiving_card (RAND_MAX : Nat) (min max v : Int)
    (hmin : min ≤ max) (hv : min ≤ v ∧ v ≤ max) :
    ((drawsGiving RAND_MAX min max v).card
        = ⌊((RAND_MAX : ℚ) + 1) / ((max - min + 1 : Int) : ℚ)⌋₊ ∨
      (drawsGiving RAND_MAX min max v).card
        = ⌈((RAND_MAX : ℚ) + 1) / ((max - min + 1 : Int) : ℚ)⌉₊) ∧
    ((max - min + 1) ∣ ((RAND_MAX : Int) + 1) →
      ((drawsGiving RAND_MAX min max v).card : Int)
        = ((RAND_MAX : Int) + 1) / (max - min + 1)) ∧
    (2 ∣ RAND_MAX + 1 → (drawsEscaping RAND_MAX).card = (RAND_MAX + 1) / 2) := by
  obtain ⟨n, hn⟩ := Int.eq_ofNat_of_zero_le (show 0 ≤ max - min + 1 by omega)
  obtain ⟨k, hk⟩ := Int.eq_ofNat_of_zero_le (show 0 ≤ v - min by omega)
  have hn0 : 0 < n := by omega
  have hkn : k < n := by omega
  obtain ⟨c1, c2, c3⟩ := quotient_fibre_card (RAND_MAX + 1) n k hn0 hkn
  rw [← drawsGiving_eq RAND_MAX n k min max v hn hk hmin] at c1 c2 c3
  have hfloor : ⌊((RAND_MAX : ℚ) + 1) / ((max - min + 1 : Int) : ℚ)⌋₊ = (RAND_MAX + 1) / n := by
    rw [hn]
    have : ((RAND_MAX : ℚ) + 1) / (((n : Nat) : Int) : ℚ)
        = (((RAND_MAX + 1 : Nat) : ℚ)) / ((n : Nat) : ℚ) := by
      push_cast
      rfl
    rw [this, Nat.floor_div_eq_div]
  refine ⟨?_, ?_, ?_⟩
  · rcases Nat.lt_or_ge ((RAND_MAX + 1) / n) (drawsGiving RAND_MAX min max v).card with hlt | hge
    · right
      have hcard : (drawsGiving RAND_MAX min max v).card = (RAND_MAX + 1) / n + 1 := by omega
      have hnd : ¬ n ∣ RAND_MAX + 1 := fun hd => by
        have := c3 hd
        omega
      rw [hcard, hn, Int.cast_natCast]
      symm
      rw [Nat.ceil_eq_iff (Nat.succ_ne_zero _)]
      show (((RAND_MAX + 1) / n : Nat) : ℚ) < _ ∧ _ ≤ (((RAND_MAX + 1) / n + 1 : Nat) : ℚ)
      have hnq : (0 : ℚ) < (n : ℚ) := by exact_mod_cast hn0
      have hmod : (RAND_MAX + 1) % n ≠ 0 := fun h0 => hnd (Nat.dvd_of_mod_eq_zero h0)
      have hdm := Nat.div_add_mod (RAND_MAX + 1) n
      have hml := Nat.mod_lt (RAND_MAX + 1) hn0
      constructor
      · rw [lt_div_iff₀ hnq]
        have : (RAND_MAX + 1) / n * n < RAND_MAX + 1 := by
          rw [Nat.mul_comm]
          omega
        have h' : (((RAND_MAX + 1) / n * n : Nat) : ℚ) < ((RAND_MAX + 1 : Nat) : ℚ) := by
          exact_mod_cast this
        push_cast at h' ⊢
        simpa using h'
      · rw [div_le_iff₀ hnq]
        have : RAND_MAX + 1 ≤ ((RAND_MAX + 1) / n + 1) * n := by
          rw [Nat.add_mul, Nat.mul_comm]
          omega
        have h' : ((RAND_MAX + 1 : Nat) : ℚ) ≤ ((((RAND_MAX + 1) / n + 1) * n : Nat) : ℚ) := by
          exact_mod_cast this
        push_cast at h' ⊢
        simpa using h'
    · left
      rw [hfloor]
      omega
  · intro hd
    have hd' : n ∣ RAND_MAX + 1 := by
      rw [hn] at hd
      exact_mod_cast hd
    rw [c3 hd', hn]
    push_cast
    rfl
  · intro h2
    have hesc : drawsEscaping RAND_MAX = drawsGiving RAND_MAX 0 1 1 := by
      unfold drawsEscaping drawsGiving
      apply Finset.filter_congr
      intro r hr
      have hr' : (r : Int) < (RAND_MAX : Int) + 1 := by
        have := Finset.mem_range.mp hr
        omega
      rw [getRandomNumber_eq_div RAND_MAX 0 1 r (by decide)]
      have h0 : 0 ≤ ((1 : Int) - 0 + 1) * (r : Int) / ((RAND_MAX : Int) + 1) :=
        Int.ediv_nonneg (by omega) (by omega)
      have h1 : ((1 : Int) - 0 + 1) * (r : Int) / ((RAND_MAX : Int) + 1) < 2 :=
        Int.ediv_lt_of_lt_mul (by omega) (by omega)
      omega
    obtain ⟨_, _, d3⟩ := quotient_fibre_card (RAND_MAX + 1) 2 1 (by decide) (by decide)
    rw [hesc, drawsGiving_eq RAND_MAX 2 1 0 1 1 (by decide) (by decide) (by decide)]
    exact d3 h2

/-! ## The encounter loop: when it returns -/

theorem attackPlayer_world (p : Player) (m : Monster) (w : World) :
    (attackPlayer p m w).2.2.randSeq = w.randSeq ∧
    (attackPlayer p m w).2.2.randCalls = w.randCalls := ⟨rfl, rfl⟩

theorem attackMonster_world (p : Player) (m : Monster) (w : World) :
    (attackMonster p m w).2.2.randSeq = w.randSeq ∧
    (attackMonster p m w).2.2.randCalls = w.randCalls := by
  unfold attackMonster
  simp only
  split_ifs <;> exact ⟨rfl, rfl⟩

theorem deathChecks_spec (s : Player × Monster × World) :
    ∃ b : Option Bool, deathChecks s = (b, s.1, s.2.1, s.2.2) ∧ b ≠ some true ∧
      (b = some false → s.1.m_health ≤ 0 ∨ s.2.1.m_health ≤ 0) ∧
      (b = none → 0 < s.1.m_health ∧ 0 < s.2.1.m_health) := by
  obtain ⟨p, m, w⟩ := s
  simp only [deathChecks, Creature.getHealth]
  split_ifs with h1 h2
  · exact ⟨some false, rfl, by simp, fun _ => Or.inl h1, by simp⟩
  · exact ⟨some false, rfl, by simp, fun _ => Or.inr h2, by simp⟩
  · exact ⟨none, rfl, by simp, by simp, fun _ => ⟨not_le.mp h1, not_le.mp h2⟩⟩

/-- The ways one pass of the loop can go: either the choice is 'r' and the
draw lets the player escape, or the pass ends in the two death checks. -/
theorem fightTurn_cases (RAND_MAX : Nat) (c : Char) (p : Player) (m : Monster) (w : World) :
    (c = 'r' ∧ getRandomNumber RAND_MAX 0 1 (w.randSeq w.randCalls) ≠ 0 ∧
      ∃ w' : World, fightTurn RAND_MAX c p m w = (some true, p, m, w') ∧
        w'.randSeq = w.randSeq ∧ w'.randCalls = w.randCalls + 1) ∨
    (∃ (b : Option Bool) (p' : Player) (m' : Monster) (w' : World),
      fightTurn RAND_MAX c p m w = (b, p', m', w') ∧ b ≠ some true ∧
      w'.randSeq = w.randSeq ∧
      ((c = 'r' ∧ getRandomNumber RAND_MAX 0 1 (w.randSeq w.randCalls) = 0 ∧
          w'.randCalls = w.randCalls + 1) ∨
        (c ≠ 'r' ∧ w'.randCalls = w.randCalls)) ∧
      (c ≠ 'f' → c ≠ 'r' → p' = p ∧ m' = m) ∧
      (b = some false → p'.m_health ≤ 0 ∨ m'.m_health ≤ 0) ∧
      (b = none → 0 < p'.m_health ∧ 0 < m'.m_health)) := by
  rw [fightTurn_eq]
  by_cases hf : c = 'f'
  · right
    have hr : c ≠ 'r' := by
      rw [hf]
      decide
    obtain ⟨b, hb, h1, h2, h3⟩ := deathChecks_spec (attackMonster p m w)
    rw [if_pos hf, hb]
    exact ⟨b, _, _, _, rfl, h1, (attackMonster_world p m w).1,
      Or.inr ⟨hr, (attackMonster_world p m w).2⟩, fun h => absurd hf h, h2, h3⟩
  · rw [if_neg hf]
    by_cases hr : c = 'r'
    · rw [if_pos hr]
      by_cases hc : getRandomNumber RAND_MAX 0 1 (w.randSeq w.randCalls) = 0
      · right
        obtain ⟨b, hb, h1, h2, h3⟩ := deathChecks_spec (attackPlayer p m
          (World.print { w with randCalls := w.randCalls + 1 }
            ("You couldn't escaped the " ++ m.getName ++ ".\n")))
        rw [if_neg (not_not.mpr hc), hb]
        exact ⟨b, _, _, _, rfl, h1, rfl, Or.inl ⟨hr, hc, rfl⟩, fun _ h => absurd hr h, h2, h3⟩
      · left
        rw [if_pos hc]
        exact ⟨hr, hc, _, rfl, rfl, rfl⟩
    · right
      rw [if_neg hr]
      obtain ⟨b, hb, h1, h2, h3⟩ := deathChecks_spec (p, m, w)
      rw [hb]
      exact ⟨b, _, _, _, rfl, h1, rfl, Or.inr ⟨hr, rfl⟩, fun _ _ => ⟨rfl, rfl⟩, h2, h3⟩


theorem fightLoop_nil (RAND_MAX : Nat) (p : Player) (m : Monster) (w : World) :
    fightLoop RAND_MAX [] p m w
      = match fightTurn RAND_MAX '\x00' p m (w.print "(R)un or (F)ight: ") with
        | (some b, player, monster, w) => some ⟨b, player, monster, [], w⟩
        | (none, _, _, _) => none := by
  rw [fightLoop]

theorem fightLoop_cons (RAND_MAX : Nat) (c : Char) (cin : List Char) (p : Player)
    (m : Monster) (w : World) :
    fightLoop RAND_MAX (c :: cin) p m w
      = if isSpace c then fightLoop RAND_MAX cin p m w
        else
          match fightTurn RAND_MAX c p m (w.print "(R)un or (F)ight: ") with
          | (some b, player, monster, w) => some ⟨b, player, monster, cin, w⟩
          | (none, player, monster, w) => fightLoop RAND_MAX cin player monster w := by
  rw [fightLoop]

/-- What a returning run of the loop of `fightMonster` satisfies. -/
theorem fightLoop_spec (RAND_MAX : Nat) (cin : List Char) :
    ∀ (p : Player) (m : Monster) (w : World) (e : Encounter),
      fightLoop RAND_MAX cin p m w = some e →
      e.world.randSeq = w.randSeq ∧ w.randCalls ≤ e.world.randCalls ∧
      (0 < p.m_health → 0 < m.m_health → e.cin.length < cin.length) ∧
      e.cin.length ≤ cin.length ∧
      (e.escaped = true → LastChoiceEscaped RAND_MAX cin w.randSeq w.randCalls e) ∧
      (e.escaped = false →
        (e.player.m_health ≤ 0 ∨ e.monster.m_health ≤ 0) ∧
        ¬ LastChoiceEscaped RAND_MAX cin w.randSeq w.randCalls e) := by
  induction cin with
  | nil =>
    intro p m w e h
    rw [fightLoop_nil] at h
    have h0f : ('\x00' : Char) ≠ 'f' := by decide
    have h0r : ('\x00' : Char) ≠ 'r' := by decide
    rcases fightTurn_cases RAND_MAX '\x00' p m (w.print "(R)un or (F)ight: ") with
      ⟨hc, _⟩ | ⟨b, p', m', w', ht, hb, hseq, hcalls, hsame, hdead, halive⟩
    · exact absurd hc h0r
    · rw [ht] at h
      obtain ⟨rfl, rfl⟩ := hsame h0f h0r
      rcases hcalls with ⟨hc, _⟩ | ⟨_, hcalls⟩
      · exact absurd hc h0r
      cases b with
      | none => simp at h
      | some b =>
        cases b with
        | true => exact absurd rfl hb
        | false =>
          simp only [Option.some.injEq] at h
          subst h
          refine ⟨hseq, hcalls.ge, ?_, le_refl _, by simp, ?_⟩
          · intro hp hm
            rcases hdead rfl with hd | hd <;> omega
          · intro _
            refine ⟨hdead rfl, ?_⟩
            rintro ⟨pre, hpre, _⟩
            simp at hpre
  | cons c cs ih =>
    intro p m w e h
    rw [fightLoop_cons] at h
    by_cases hs : isSpace c = true
    · rw [if_pos hs] at h
      obtain ⟨i1, i2, i3, i4, i5, i6⟩ := ih p m w e h
      have hcr : c ≠ 'r' := by
        rintro rfl
        exact absurd hs (by decide)
      refine ⟨i1, i2, ?_, ?_, ?_, ?_⟩
      · intro hp hm
        have := i3 hp hm
        simp only [List.length_cons]
        omega
      · simp only [List.length_cons]
        omega
      · intro he
        obtain ⟨pre, hpre, h1, h2⟩ := i5 he
        exact ⟨c :: pre, by rw [hpre]; rfl, h1, h2⟩
      · intro he
        refine ⟨(i6 he).1, ?_⟩
        rintro ⟨pre, hpre, h1, h2⟩
        cases pre with
        | nil =>
          simp only [List.nil_append, List.cons.injEq] at hpre
          exact hcr hpre.1
        | cons d pre' =>
          simp only [List.cons_append, List.cons.injEq] at hpre
          exact (i6 he).2 ⟨pre', hpre.2, h1, h2⟩
    · rw [if_neg hs] at h
      rcases fightTurn_cases RAND_MAX c p m (w.print "(R)un or (F)ight: ") with
        ⟨hc, hcoin, w', ht, hseq, hcalls⟩ |
        ⟨b, p', m', w', ht, hb, hseq, hcalls, hsame, hdead, halive⟩
      · rw [ht] at h
        simp only [Option.some.injEq] at h
        subst h
        simp only [World.print_randSeq, World.print_randCalls] at hseq hcalls hcoin
        refine ⟨hseq, by simp only; omega, ?_, ?_, ?_, ?_⟩
        · intro _ _
          simp
        · simp
        · intro _
          refine ⟨[], by rw [hc]; rfl, by simp only; omega, ?_⟩
          simp only [hcalls, Nat.add_sub_cancel]
          exact hcoin
        · intro he
          simp at he
      · rw [ht] at h
        simp only [World.print_randSeq, World.print_randCalls] at hseq hcalls
        cases b with
        | some b =>
          cases b with
          | true => exact absurd rfl hb
          | false =>
            simp only [Option.some.injEq] at h
            subst h
            refine ⟨hseq, ?_, ?_, ?_, by simp, ?_⟩
            · simp only
              rcases hcalls with ⟨_, _, hcalls⟩ | ⟨_, hcalls⟩ <;> omega
            · intro _ _
              simp
            · simp
            · intro _
              refine ⟨hdead rfl, ?_⟩
              rintro ⟨pre, hpre, h1, h2⟩
              simp only at hpre h1 h2
              have hlen := congrArg List.length hpre
              simp only [List.length_cons, List.length_append] at hlen
              have hpre0 : pre = [] := List.eq_nil_of_length_eq_zero (by omega)
              subst hpre0
              simp only [List.nil_append, List.cons.injEq, and_true] at hpre
              rcases hcalls with ⟨_, hzero, hcalls⟩ | ⟨hne, _⟩
              · rw [hcalls, Nat.add_sub_cancel] at h2
                exact h2 hzero
              · exact hne hpre
        | none =>
          simp only at h
          obtain ⟨hp', hm'⟩ := halive rfl
          obtain ⟨i1, i2, i3, i4, i5, i6⟩ := ih p' m' w' e h
          have hlt := i3 hp' hm'
          have hle : w.randCalls ≤ w'.randCalls := by
            rcases hcalls with ⟨_, _, hcalls⟩ | ⟨_, hcalls⟩ <;> omega
          refine ⟨i1.trans hseq, hle.trans i2, ?_, ?_, ?_, ?_⟩
          · intro _ _
            simp only [List.length_cons]
            omega
          · simp only [List.length_cons]
            omega
          · intro he
            obtain ⟨pre, hpre, h1, h2⟩ := i5 he
            refine ⟨c :: pre, by rw [hpre]; rfl, by omega, ?_⟩
            rw [← hseq]
            exact h2
          · intro he
            refine ⟨(i6 he).1, ?_⟩
            rintro ⟨pre, hpre, h1, h2⟩
            cases pre with
            | nil =>
              simp only [List.nil_append, List.cons.injEq] at hpre
              have := congrArg List.length hpre.2
              omega
            | cons d pre' =>
              simp only [List.cons_append, List.cons.injEq] at hpre
              apply (i6 he).2
              refine ⟨pre', hpre.2, ?_, by rw [hseq]; exact h2⟩
              rcases hcalls with ⟨_, hzero, hcalls⟩ | ⟨_, hcalls⟩
              · rcases Nat.lt_or_ge w'.randCalls e.world.randCalls with hlt' | hge'
                · exact hlt'
                · have heq : e.world.randCalls = w.randCalls + 1 := by omega
                  rw [heq, Nat.add_sub_cancel] at h2
                  exact absurd hzero h2
              · omega


/-- The choice 'r' with a draw that passes the test returns true. -/
theorem fightLoop_run_escape (RAND_MAX : Nat) (cin : List Char) (p : Player) (m : Monster)
    (w : World) (hcoin : getRandomNumber RAND_MAX 0 1 (w.randSeq w.randCalls) ≠ 0) :
    fightLoop RAND_MAX ('r' :: cin) p m w
      = some ⟨true, p, m, cin,
          (w.print "(R)un or (F)ight: ").stdRand.2.print
            ("You escaped the " ++ m.getName ++ ".\n")⟩ := by
  have hs : isSpace 'r' = false := by decide
  rw [fightLoop, hs, fightTurn_eq]
  simp only [World.print_randCalls, World.print_randSeq]
  rw [if_neg (by decide), if_pos trivial, if_pos hcoin]
  rfl

theorem spawn_32767_max :
    (Monster.getRandomMonster 32767 32767).bind Monster.create = some slime := by
  have h : getRandomNumber 32767 0 2 32767 = 2 := by
    rw [getRandomNumber_eq_div 32767 0 2 32767 (by decide)]
    decide
  simp only [Monster.getRandomMonster, MonsterType.toNat]
  norm_num [h, MonsterType.ofInt]
  rfl

theorem fightMonster_escapedEncounter :
    fightMonster 32767 ['r'] hero (constWorld 32767) = some escapedEncounter := by
  rw [fightMonster_spawn 32767 ['r'] hero (constWorld 32767) slime spawn_32767_max,
    fightLoop_run_escape]
  · rfl
  · show getRandomNumber 32767 0 1 32767 ≠ 0
    rw [coin_32767_max]
    decide

/-- Claim C3.  Whenever a call of `fightMonster` returns, it returns true exactly
when the last choice it read was 'r' and the draw made for that choice let the
player escape; and when it returns false, the player's health or the monster's
health is 0 or below. -/
theorem fightMonster_result (RAND_MAX : Nat) (cin : List Char) (player : Player)
    (w : World) (e : Encounter) (h : fightMonster RAND_MAX cin player w = some e) :
    (e.escaped = true ↔
      LastChoiceEscaped RAND_MAX cin w.randSeq (w.randCalls + 1) e) ∧
    (e.escaped = false → e.player.m_health ≤ 0 ∨ e.monster.m_health ≤ 0) := by
  cases hsp : (Monster.getRandomMonster RAND_MAX (w.randSeq w.randCalls)).bind
      Monster.create with
  | none =>
    rw [fightMonster_no_spawn RAND_MAX cin player w hsp] at h
    exact absurd h (by simp)
  | some monster =>
    rw [fightMonster_spawn RAND_MAX cin player w monster hsp] at h
    obtain ⟨_, _, _, _, i5, i6⟩ := fightLoop_spec RAND_MAX cin player monster _ e h
    refine ⟨⟨i5, ?_⟩, fun he => (i6 he).1⟩
    intro hl
    cases he : e.escaped with
    | true => rfl
    | false => exact absurd hl (i6 he).2

theorem fightMonster_result_witness :
    fightMonster 32767 ['r'] hero (constWorld 32767) = some escapedEncounter ∧
    (escapedEncounter.escaped = true ↔
      LastChoiceEscaped 32767 ['r'] (constWorld 32767).randSeq
        ((constWorld 32767).randCalls + 1) escapedEncounter) ∧
    (escapedEncounter.escaped = false →
      escapedEncounter.player.m_health ≤ 0 ∨ escapedEncounter.monster.m_health ≤ 0) :=
  ⟨fightMonster_escapedEncounter,
    fightMonster_result 32767 ['r'] hero (constWorld 32767) escapedEncounter
      fightMonster_escapedEncounter⟩

/-! ## The fuel of the game loop -/

/-- A player who is alive when the loop starts is alive when it returns true. -/
theorem fightLoop_escaped_alive (RAND_MAX : Nat) (cin : List Char) :
    ∀ (p : Player) (m : Monster) (w : World) (e : Encounter),
      fightLoop RAND_MAX cin p m w = some e → 0 < p.m_health → e.escaped = true →
      0 < e.player.m_health := by
  induction cin with
  | nil =>
    intro p m w e h _ he
    rw [fightLoop_nil] at h
    rcases fightTurn_cases RAND_MAX '\x00' p m (w.print "(R)un or (F)ight: ") with
      ⟨hc, _⟩ | ⟨b, p', m', w', ht, hb, _⟩
    · exact absurd hc (by decide)
    · rw [ht] at h
      cases b with
      | none => simp at h
      | some b =>
        simp only [Option.some.injEq] at h
        subst h
        simp only at he
        subst he
        exact absurd rfl hb
  | cons c cs ih =>
    intro p m w e h hp he
    rw [fightLoop_cons] at h
    by_cases hs : isSpace c = true
    · rw [if_pos hs] at h
      exact ih p m w e h hp he
    · rw [if_neg hs] at h
      rcases fightTurn_cases RAND_MAX c p m (w.print "(R)un or (F)ight: ") with
        ⟨_, _, w', ht, _⟩ | ⟨b, p', m', w', ht, hb, _, _, _, _, halive⟩
      · rw [ht] at h
        simp only [Option.some.injEq] at h
        subst h
        exact hp
      · rw [ht] at h
        cases b with
        | some b =>
          simp only [Option.some.injEq] at h
          subst h
          simp only at he
          subst he
          exact absurd rfl hb
        | none => exact ih p' m' w' e h (halive rfl).1 he

/-- A returning call of `fightMonster` for a living player has read at least
one character, and leaves the player alive when it returns true. -/
theorem fightMonster_progress (RAND_MAX : Nat) (cin : List Char) (player : Player)
    (w : World) (e : Encounter) (h : fightMonster RAND_MAX cin player w = some e)
    (hp : 0 < player.m_health) :
    e.cin.length < cin.length ∧ (e.escaped = true → 0 < e.player.m_health) := by
  cases hsp : (Monster.getRandomMonster RAND_MAX (w.randSeq w.randCalls)).bind
      Monster.create with
  | none =>
    rw [fightMonster_no_spawn RAND_MAX cin player w hsp] at h
    exact absurd h (by simp)
  | some monster =>
    rw [fightMonster_spawn RAND_MAX cin player w monster hsp] at h
    have hm : 0 < monster.m_health := by
      cases hty : Monster.getRandomMonster RAND_MAX (w.randSeq w.randCalls) with
      | none =>
        rw [hty] at hsp
        simp at hsp
      | some type =>
        rw [hty] at hsp
        exact catalog_health_pos type monster hsp
    exact ⟨(fightLoop_spec RAND_MAX cin player monster _ e h).2.2.1 hp hm,
      fightLoop_escaped_alive RAND_MAX cin player monster _ e h hp⟩

/-- For a living player the loop of `main` needs no more fuel than one unit per
unread character, and one more: more fuel gives the same result. -/
theorem mainLoop_fuel_enough (RAND_MAX : Nat) :
    ∀ (n : Nat) (cin : List Char) (player : Player) (w : World) (fuel : Nat),
      cin.length < n → 0 < player.m_health → n ≤ fuel →
      mainLoop RAND_MAX fuel cin player w = mainLoop RAND_MAX n cin player w := by
  intro n
  induction n with
  | zero =>
    intro cin player w fuel hlen
    omega
  | succ n ih =>
    intro cin player w fuel hlen hp hfuel
    obtain ⟨f, rfl⟩ : ∃ f, fuel = f + 1 := ⟨fuel - 1, by omega⟩
    rw [mainLoop_succ, mainLoop_succ]
    cases hfm : fightMonster RAND_MAX cin player w with
    | none => rfl
    | some e =>
      obtain ⟨hlt, halive⟩ := fightMonster_progress RAND_MAX cin player w e hfm hp
      have hcont : 0 < e.player.m_health →
          mainLoop RAND_MAX f e.cin e.player e.world
            = mainLoop RAND_MAX n e.cin e.player e.world :=
        fun h => ih e.cin e.player e.world f (by omega) h (by omega)
      show afterEncounter (mainLoop RAND_MAX f) e = afterEncounter (mainLoop RAND_MAX n) e
      unfold afterEncounter
      by_cases hesc : e.escaped = true
      · rw [if_pos hesc, if_pos hesc]
        exact hcont (halive hesc)
      · rw [if_neg hesc, if_neg hesc]
        by_cases hd : e.player.getHealth ≤ 0
        · rw [if_pos hd, if_pos hd]
        · rw [if_neg hd, if_neg hd]
          by_cases hw : e.player.hasWon = true
          · rw [if_pos hw, if_pos hw]
          · rw [if_neg hw, if_neg hw]
            exact hcont (not_le.mp hd)

/-! ## Levelling up -/

theorem levelUp_iterate_from (p : Player) (N : Nat) :
    (Player.levelUp^[N] p).m_damage = p.m_damage + N ∧
    (Player.levelUp^[N] p).m_level = p.m_level + N ∧
    (Player.levelUp^[N] p).m_health = p.m_health ∧
    (Player.levelUp^[N] p).m_gold = p.m_gold := by
  induction N with
  | zero => simp
  | succ n ih =>
    obtain ⟨h1, h2, h3, h4⟩ := ih
    rw [Function.iterate_succ_apply']
    refine ⟨?_, ?_, ?_, ?_⟩
    · show (Player.levelUp^[n] p).m_damage + 1 = _
      rw [h1]
      push_cast
      ring
    · show (Player.levelUp^[n] p).m_level + 1 = _
      rw [h2]
      push_cast
      ring
    · exact h3
    · exact h4

/-- Claim C11.  A freshly constructed player on which `levelUp()` has been called
`N` times has damage `1 + N` and level `1 + N`, and still health 10 and gold 0. -/
theorem levelUp_iterate (name : String) (N : Nat) :
    (Player.levelUp^[N] (Player.create name)).m_damage = 1 + (N : Int) ∧
    (Player.levelUp^[N] (Player.create name)).m_level = 1 + (N : Int) ∧
    (Player.levelUp^[N] (Player.create name)).m_health = 10 ∧
    (Player.levelUp^[N] (Player.create name)).m_gold = 0 := by
  obtain ⟨h1, h2, h3, h4⟩ := levelUp_iterate_from (Player.create name) N
  exact ⟨h1, h2, h3, h4⟩

/-! ## The encounter loop: other input -/

/-- Claim C12.  When the player and the monster are both alive, a pass of the
loop with a choice other than 'f' and 'r' returns the player, the monster and
the process state unchanged (so nothing is drawn) and does not leave the loop:
the loop goes on with the rest of the input.  The uppercase letters 'F' and 'R'
are such choices. -/
theorem other_choice_ignored (RAND_MAX : Nat) (c : Char) (cin : List Char)
    (player : Player) (monster : Monster) (w : World)
    (hp : 0 < player.m_health) (hm : 0 < monster.m_health)
    (hf : c ≠ 'f') (hr : c ≠ 'r') :
    fightTurn RAND_MAX c player monster w = (none, player, monster, w) ∧
    fightLoop RAND_MAX (c :: cin) player monster w
      = fightLoop RAND_MAX cin player monster
          (if isSpace c then w else w.print "(R)un or (F)ight: ") ∧
    fightTurn RAND_MAX 'F' player monster w = (none, player, monster, w) ∧
    fightTurn RAND_MAX 'R' player monster w = (none, player, monster, w) := by
  have hturn : ∀ (d : Char) (v : World), d ≠ 'f' → d ≠ 'r' →
      fightTurn RAND_MAX d player monster v = (none, player, monster, v) := by
    intro d v hdf hdr
    rw [fightTurn_eq, if_neg hdf, if_neg hdr]
    simp only [deathChecks, Creature.getHealth]
    rw [if_neg (not_le.mpr hp), if_neg (not_le.mpr hm)]
  refine ⟨hturn c w hf hr, ?_, hturn 'F' w (by decide) (by decide),
    hturn 'R' w (by decide) (by decide)⟩
  rw [fightLoop_cons]
  by_cases hs : isSpace c = true
  · rw [if_pos hs, if_pos hs]
  · rw [if_neg hs, if_neg hs, hturn c _ hf hr]

theorem other_choice_ignored_witness :
    0 < hero.m_health ∧ 0 < dragon.m_health ∧ 'F' ≠ 'f' ∧ 'F' ≠ 'r' ∧
    fightTurn 32767 'F' hero dragon (constWorld 0) = (none, hero, dragon, constWorld 0) ∧
    fightLoop 32767 ('F' :: ['r']) hero dragon (constWorld 0)
      = fightLoop 32767 ['r'] hero dragon
          (if isSpace 'F' then constWorld 0
           else (constWorld 0).print "(R)un or (F)ight: ") ∧
    fightTurn 32767 'F' hero dragon (constWorld 0) = (none, hero, dragon, constWorld 0) ∧
    fightTurn 32767 'R' hero dragon (constWorld 0) = (none, hero, dragon, constWorld 0) :=
  ⟨by decide, by decide, by decide, by decide,
    other_choice_ignored 32767 'F' ['r'] hero dragon (constWorld 0)
      (by decide) (by decide) (by decide) (by decide)⟩

/-! ## End-to-end scenarios -/

/-- Claim C13.  A fresh player named "Hero" has health 10, damage 1, gold 0 and
level 1; when `fightMonster` creates a slime and the input is 'f', the call
returns false with the slime at health 0 and dead, and the player at gold 10,
level 2, damage 2 and health 10. -/
theorem hero_kills_slime (RAND_MAX : Nat) (cin : List Char) (w : World)
    (hspawn : (Monster.getRandomMonster RAND_MAX (w.randSeq w.randCalls)).bind
      Monster.create = some slime) :
    (Player.create "Hero").m_health = 10 ∧ (Player.create "Hero").m_damage = 1 ∧
    (Player.create "Hero").m_gold = 0 ∧ (Player.create "Hero").m_level = 1 ∧
    ∃ (player' : Player) (monster' : Monster) (w' : World),
      fightMonster RAND_MAX ('f' :: cin) (Player.create "Hero") w
        = some ⟨false, player', monster', cin, w'⟩ ∧
      monster'.m_health = 0 ∧ monster'.isDead = true ∧
      player'.m_gold = 10 ∧ player'.m_level = 2 ∧ player'.m_damage = 2 ∧
      player'.m_health = 10 := by
  have hfm := fightLoop_fight_kill RAND_MAX cin (Player.create "Hero") slime
    ((w.stdRand.2.print (encounterText slime)).print
      (printTable (Player.create "Hero") slime)) (by decide) (by decide)
  rw [← fightMonster_spawn RAND_MAX _ _ w slime hspawn] at hfm
  exact ⟨rfl, rfl, rfl, rfl, _, _, _, hfm, rfl, rfl, rfl, rfl, rfl, rfl⟩

theorem hero_kills_slime_witness :
    (Monster.getRandomMonster 32767
      ((constWorld 32767).randSeq (constWorld 32767).randCalls)).bind
      Monster.create = some slime ∧
    (Player.create "Hero").m_health = 10 ∧ (Player.create "Hero").m_damage = 1 ∧
    (Player.create "Hero").m_gold = 0 ∧ (Player.create "Hero").m_level = 1 ∧
    ∃ (player' : Player) (monster' : Monster) (w' : World),
      fightMonster 32767 ('f' :: []) (Player.create "Hero") (constWorld 32767)
        = some ⟨false, player', monster', [], w'⟩ ∧
      monster'.m_health = 0 ∧ monster'.isDead = true ∧
      player'.m_gold = 10 ∧ player'.m_level = 2 ∧ player'.m_damage = 2 ∧
      player'.m_health = 10 :=
  ⟨spawn_32767_max, hero_kills_slime 32767 [] (constWorld 32767) spawn_32767_max⟩

/-- A fight choice that the monster survives and that kills the player ends the
loop. -/
theorem fightLoop_fight_death (RAND_MAX : Nat) (cin : List Char) (player : Player)
    (monster : Monster) (w : World) (hs : 0 < monster.m_health - player.m_damage)
    (hd : player.m_health - monster.m_damage ≤ 0) :
    fightLoop RAND_MAX ('f' :: cin) player monster w
      = some ⟨false, (attackMonster player monster (w.print "(R)un or (F)ight: ")).1,
          (attackMonster player monster (w.print "(R)un or (F)ight: ")).2.1, cin,
          (attackMonster player monster (w.print "(R)un or (F)ight: ")).2.2⟩ := by
  have hsp : isSpace 'f' = false := by decide
  have hk : ¬ monster.m_health - player.m_damage ≤ 0 := not_le.mpr hs
  rw [fightLoop, hsp, fightTurn_eq]
  simp [deathChecks, attackMonster, attackPlayer, Creature.getHealth, Creature.getDamage,
    hk, hd]

/-- Claim C14.  For a player with health 1 facing a freshly created orc, the
choice 'f' brings the orc's health to 4 minus the player's damage; when that is
positive the orc hits back, the player's health is -1, the encounter returns
false, and the loop of `main` ends with the death message for the player's
unchanged level and gold. -/
theorem weak_player_dies_to_orc (RAND_MAX : Nat)
    (again : List Char → Player → World → Option GameOver) (cin : List Char)
    (player : Player) (w : World) (hh : player.m_health = 1) :
    (attackMonster player orc (w.print "(R)un or (F)ight: ")).2.1.m_health
      = 4 - player.m_damage ∧
    (4 - player.m_damage > 0 →
      (∃ (player' : Player) (monster' : Monster) (w' : World),
        fightLoop RAND_MAX ('f' :: cin) player orc w
          = some ⟨false, player', monster', cin, w'⟩ ∧
        monster'.m_health = 4 - player.m_damage ∧
        player'.m_health = -1 ∧
        player'.m_level = player.m_level ∧
        player'.m_gold = player.m_gold ∧
        afterEncounter again ⟨false, player', monster', cin, w'⟩
          = some ⟨Ending.died player.m_level player.m_gold, player', cin,
              w'.print (Ending.died player.m_level player.m_gold).message⟩) ∧
      (∀ (fuel : Nat) (w0 : World),
        (Monster.getRandomMonster RAND_MAX (w0.randSeq w0.randCalls)).bind Monster.create
          = some orc →
        ∃ (player' : Player) (w' : World),
          mainLoop RAND_MAX (fuel + 1) ('f' :: cin) player w0
            = some ⟨Ending.died player.m_level player.m_gold, player', cin, w'⟩ ∧
          player'.m_health = -1)) := by
  have hhealth : ∀ v : World, (attackMonster player orc v).2.1.m_health
      = 4 - player.m_damage := by
    intro v
    simp only [attackMonster, Creature.getHealth, Creature.getDamage]
    split_ifs <;> rfl
  refine ⟨hhealth _, ?_⟩
  intro hsurv
  have hs : 0 < orc.m_health - player.m_damage := hsurv
  have hk : ¬ orc.m_health - player.m_damage ≤ 0 := not_le.mpr hs
  have hd : player.m_health - orc.m_damage ≤ 0 := by
    rw [hh]
    decide
  have hstats : ∀ v : World,
      (attackMonster player orc v).1.m_health = -1 ∧
      (attackMonster player orc v).1.m_level = player.m_level ∧
      (attackMonster player orc v).1.m_gold = player.m_gold := by
    intro v
    simp only [attackMonster, attackPlayer, Creature.getHealth, Creature.getDamage]
    rw [if_neg hk]
    refine ⟨?_, rfl, rfl⟩
    show player.m_health - orc.m_damage = -1
    rw [hh]
    rfl
  have hafter : ∀ (v : World) (again' : List Char → Player → World → Option GameOver),
      afterEncounter again'
        ⟨false, (attackMonster player orc v).1, (attackMonster player orc v).2.1, cin,
          (attackMonster player orc v).2.2⟩
      = some ⟨Ending.died player.m_level player.m_gold, (attackMonster player orc v).1,
          cin, ((attackMonster player orc v).2.2).print
            (Ending.died player.m_level player.m_gold).message⟩ := by
    intro v again'
    obtain ⟨h1, h2, h3⟩ := hstats v
    simp [afterEncounter, Creature.getHealth, Creature.getGold, Player.getLevel, h1, h2, h3]
  constructor
  · exact ⟨_, _, _, fightLoop_fight_death RAND_MAX cin player orc w hs hd, hhealth _,
      (hstats _).1, (hstats _).2.1, (hstats _).2.2, hafter _ again⟩
  · intro fuel w0 hspawn
    rw [mainLoop_succ, fightMonster_spawn RAND_MAX _ player w0 orc hspawn,
      fightLoop_fight_death RAND_MAX cin player orc _ hs hd]
    exact ⟨_, _, hafter _ _, (hstats _).1⟩

theorem weak_player_dies_to_orc_witness :
    wounded.m_health = 1 ∧
    (attackMonster wounded orc ((constWorld 0).print "(R)un or (F)ight: ")).2.1.m_health
      = 4 - wounded.m_damage ∧
    (4 - wounded.m_damage > 0 →
      (∃ (player' : Player) (monster' : Monster) (w' : World),
        fightLoop 32767 ('f' :: []) wounded orc (constWorld 0)
          = some ⟨false, player', monster', [], w'⟩ ∧
        monster'.m_health = 4 - wounded.m_damage ∧
        player'.m_health = -1 ∧
        player'.m_level = wounded.m_level ∧
        player'.m_gold = wounded.m_gold ∧
        afterEncounter (fun _ _ _ => none) ⟨false, player', monster', [], w'⟩
          = some ⟨Ending.died wounded.m_level wounded.m_gold, player', [],
              w'.print (Ending.died wounded.m_level wounded.m_gold).message⟩) ∧
      (∀ (fuel : Nat) (w0 : World),
        (Monster.getRandomMonster 32767 (w0.randSeq w0.randCalls)).bind Monster.create
          = some orc →
        ∃ (player' : Player) (w' : World),
          mainLoop 32767 (fuel + 1) ('f' :: []) wounded w0
            = some ⟨Ending.died wounded.m_level wounded.m_gold, player', [], w'⟩ ∧
          player'.m_health = -1)) :=
  ⟨rfl, weak_player_dies_to_orc 32767 (fun _ _ _ => none) [] wounded (constWorld 0) rfl⟩

/-! ## The random archetype -/

/-- The draw lies between `min` and `max` when the generator's output is at
most `RAND_MAX`. -/
theorem getRandomNumber_bounds (RAND_MAX : Nat) (min max : Int) (r : Nat)
    (hmin : min ≤ max) (hr : r ≤ RAND_MAX) :
    min ≤ getRandomNumber RAND_MAX min max r ∧ getRandomNumber RAND_MAX min max r ≤ max := by
  rw [getRandomNumber_eq_div RAND_MAX min max r hmin]
  have hM : (0 : Int) < (RAND_MAX : Int) + 1 := by omega
  have hn : (0 : Int) ≤ max - min + 1 := by omega
  have h0 : 0 ≤ (max - min + 1) * (r : Int) / ((RAND_MAX : Int) + 1) :=
    Int.ediv_nonneg (mul_nonneg hn (Int.ofNat_nonneg r)) hM.le
  have h1 : (max - min + 1) * (r : Int) / ((RAND_MAX : Int) + 1) < max - min + 1 := by
    apply Int.ediv_lt_of_lt_mul hM
    have hr' : (r : Int) < (RAND_MAX : Int) + 1 := by omega
    nlinarith
  constructor <;> omega

/-- Claim C15.  For every generator output `r` between 0 and `RAND_MAX`,
`getRandomMonster` returns DRAGON, ORC or SLIME and never MAX_TYPES, so the
index is one of the three rows of `monsterData` and the constructor finds its
row. -/
theorem getRandomMonster_in_catalog (RAND_MAX r : Nat) (hr : r ≤ RAND_MAX) :
    ∃ type : MonsterType,
      Monster.getRandomMonster RAND_MAX r = some type ∧
      (type = MonsterType.DRAGON ∨ type = MonsterType.ORC ∨ type = MonsterType.SLIME) ∧
      type ≠ MonsterType.MAX_TYPES ∧
      type.toNat < monsterData.length ∧
      ∃ monster : Monster, Monster.create type = some monster := by
  obtain ⟨h0, h2⟩ := getRandomNumber_bounds RAND_MAX 0 2 r (by decide) hr
  have hcases : getRandomNumber RAND_MAX 0 2 r = 0 ∨ getRandomNumber RAND_MAX 0 2 r = 1 ∨
      getRandomNumber RAND_MAX 0 2 r = 2 := by omega
  have hdef : Monster.getRandomMonster RAND_MAX r
      = MonsterType.ofInt (getRandomNumber RAND_MAX 0 2 r) := rfl
  rcases hcases with h | h | h
  · exact ⟨MonsterType.DRAGON, by rw [hdef, h]; rfl, Or.inl rfl, by decide, by decide,
      _, rfl⟩
  · exact ⟨MonsterType.ORC, by rw [hdef, h]; rfl, Or.inr (Or.inl rfl), by decide,
      by decide, _, rfl⟩
  · exact ⟨MonsterType.SLIME, by rw [hdef, h]; rfl, Or.inr (Or.inr rfl), by decide,
      by decide, _, rfl⟩

theorem getRandomMonster_in_catalog_witness :
    32767 ≤ 32767 ∧
    ∃ type : MonsterType,
      Monster.getRandomMonster 32767 32767 = some type ∧
      (type = MonsterType.DRAGON ∨ type = MonsterType.ORC ∨ type = MonsterType.SLIME) ∧
      type ≠ MonsterType.MAX_TYPES ∧
      type.toNat < monsterData.length ∧
      ∃ monster : Monster, Monster.create type = some monster :=
  ⟨le_refl _, getRandomMonster_in_catalog 32767 32767 (le_refl _)⟩

/-! ## Auxiliary facts about one action -/

theorem attackPlayer_stats (p : Player) (m : Monster) (w : World) :
    (attackPlayer p m w).1.m_health = p.m_health - m.m_damage ∧
    (attackPlayer p m w).1.m_level = p.m_level ∧
    (attackPlayer p m w).1.m_damage = p.m_damage ∧
    (attackPlayer p m w).1.m_gold = p.m_gold ∧
    (attackPlayer p m w).2.1 = m := ⟨rfl, rfl, rfl, rfl, rfl⟩

theorem attackMonster_of_kill (p : Player) (m : Monster) (w : World)
    (hk : m.m_health - p.m_damage ≤ 0) :
    (attackMonster p m w).1.m_health = p.m_health ∧
    (attackMonster p m w).1.m_level = p.m_level + 1 ∧
    (attackMonster p m w).1.m_damage = p.m_damage + 1 ∧
    (attackMonster p m w).2.1.m_health = m.m_health - p.m_damage ∧
    (attackMonster p m w).2.1.m_damage = m.m_damage := by
  simp [attackMonster, Creature.getHealth, Creature.getDamage, Player.levelUp, hk]

theorem attackMonster_of_survive (p : Player) (m : Monster) (w : World)
    (hs : 0 < m.m_health - p.m_damage) :
    (attackMonster p m w).1.m_health = p.m_health - m.m_damage ∧
    (attackMonster p m w).1.m_level = p.m_level ∧
    (attackMonster p m w).1.m_damage = p.m_damage ∧
    (attackMonster p m w).2.1.m_health = m.m_health - p.m_damage ∧
    (attackMonster p m w).2.1.m_damage = m.m_damage := by
  have h' : ¬ m.m_health - p.m_damage ≤ 0 := not_le.mpr hs
  simp [attackMonster, attackPlayer, Creature.getHealth, Creature.getDamage, h']

/-- What one pass of the loop does to a living player and a living monster
whose damages are not negative. -/
theorem fightTurn_step (RAND_MAX : Nat) (c : Char) (p : Player) (m : Monster) (w : World)
    (hp : 0 < p.m_health) (hm : 0 < m.m_health) (hpd : 0 ≤ p.m_damage)
    (hmd : 0 ≤ m.m_damage) :
    ∃ (b : Option Bool) (p' : Player) (m' : Monster) (w' : World),
      fightTurn RAND_MAX c p m w = (b, p', m', w') ∧
      (b = some true → p' = p ∧ m' = m) ∧
      (b = none →
        0 < p'.m_health ∧ p'.m_health ≤ p.m_health ∧ 0 < m'.m_health ∧
        m'.m_health ≤ m.m_health ∧ p'.m_level = p.m_level ∧ p'.m_damage = p.m_damage ∧
        m'.m_damage = m.m_damage) ∧
      (b = some false →
        (p'.m_health ≤ 0 ∧ 0 < m'.m_health ∧ p'.m_level = p.m_level ∧
          p'.m_damage = p.m_damage) ∨
        (p'.m_health = p.m_health ∧ m'.m_health ≤ 0 ∧ p'.m_level = p.m_level + 1 ∧
          p'.m_damage = p.m_damage + 1)) := by
  rw [fightTurn_eq]
  by_cases hf : c = 'f'
  · rw [if_pos hf]
    obtain ⟨b, hb, h1, h2, h3⟩ := deathChecks_spec (attackMonster p m w)
    rw [hb]
    refine ⟨b, _, _, _, rfl, fun h => absurd h h1, ?_, ?_⟩
    · intro hn
      obtain ⟨a1, a2⟩ := h3 hn
      rcases le_or_lt (m.m_health - p.m_damage) 0 with hk | hs
      · obtain ⟨_, _, _, k4, _⟩ := attackMonster_of_kill p m w hk
        omega
      · obtain ⟨s1, s2, s3, s4, s5⟩ := attackMonster_of_survive p m w hs
        exact ⟨a1, by omega, a2, by omega, s2, s3, s5⟩
    · intro hfalse
      rcases le_or_lt (m.m_health - p.m_damage) 0 with hk | hs
      · obtain ⟨k1, k2, k3, k4, _⟩ := attackMonster_of_kill p m w hk
        exact Or.inr ⟨k1, by omega, k2, k3⟩
      · obtain ⟨s1, s2, s3, s4, s5⟩ := attackMonster_of_survive p m w hs
        rcases h2 hfalse with hd | hd
        · exact Or.inl ⟨hd, by omega, s2, s3⟩
        · omega
  · rw [if_neg hf]
    by_cases hr : c = 'r'
    · rw [if_pos hr]
      by_cases hc : getRandomNumber RAND_MAX 0 1 (w.randSeq w.randCalls) = 0
      · rw [if_neg (not_not.mpr hc)]
        obtain ⟨b, hb, h1, h2, h3⟩ := deathChecks_spec (attackPlayer p m
          (World.print { w with randCalls := w.randCalls + 1 }
            ("You couldn't escaped the " ++ m.getName ++ ".\n")))
        rw [hb]
        obtain ⟨s1, s2, s3, _, s5⟩ := attackPlayer_stats p m
          (World.print { w with randCalls := w.randCalls + 1 }
            ("You couldn't escaped the " ++ m.getName ++ ".\n"))
        refine ⟨b, _, _, _, rfl, fun h => absurd h h1, ?_, ?_⟩
        · intro hn
          obtain ⟨a1, a2⟩ := h3 hn
          rw [s5] at a2 ⊢
          exact ⟨a1, by omega, hm, le_refl _, s2, s3, rfl⟩
        · intro hfalse
          rcases h2 hfalse with hd | hd
          · rw [s5]
            exact Or.inl ⟨hd, hm, s2, s3⟩
          · rw [s5] at hd
            omega
      · rw [if_pos hc]
        exact ⟨some true, _, _, _, rfl, fun _ => ⟨rfl, rfl⟩, by simp, by simp⟩
    · rw [if_neg hr]
      obtain ⟨b, hb, h1, h2, h3⟩ := deathChecks_spec (p, m, w)
      rw [hb]
      refine ⟨b, _, _, _, rfl, fun h => absurd h h1, ?_, ?_⟩
      · intro _
        exact ⟨hp, le_refl _, hm, le_refl _, rfl, rfl, rfl⟩
      · intro hfalse
        rcases h2 hfalse with hd | hd
        · exact absurd hd (not_le.mpr hp)
        · exact absurd hd (not_le.mpr hm)

/-! ## Auxiliary facts about the prompts and the outcome of an encounter -/

theorem promptStates_nil (RAND_MAX : Nat) (p : Player) (m : Monster) (w : World) :
    promptStates RAND_MAX [] p m w = [(p, m, w)] := by
  rw [promptStates]

theorem promptStates_cons (RAND_MAX : Nat) (c : Char) (cin : List Char) (p : Player)
    (m : Monster) (w : World) :
    promptStates RAND_MAX (c :: cin) p m w
      = if isSpace c then promptStates RAND_MAX cin p m w
        else
          (p, m, w) ::
            match fightTurn RAND_MAX c p m (w.print "(R)un or (F)ight: ") with
            | (some _, _, _, _) => []
            | (none, player, monster, w) => promptStates RAND_MAX cin player monster w := by
  rw [promptStates]

/-- At every prompt of an encounter that a living player and a living monster
enter, both are alive, their healths are at most what they were on entry, and
the player's level and the two damages are what they were on entry. -/
theorem promptStates_inv (RAND_MAX : Nat) (cin : List Char) :
    ∀ (p : Player) (m : Monster) (w : World),
      0 < p.m_health → 0 < m.m_health → 0 ≤ p.m_damage → 0 ≤ m.m_damage →
      ∀ s ∈ promptStates RAND_MAX cin p m w,
        0 < s.1.m_health ∧ s.1.m_health ≤ p.m_health ∧ 0 < s.2.1.m_health ∧
        s.2.1.m_health ≤ m.m_health ∧ s.1.m_level = p.m_level ∧
        s.1.m_damage = p.m_damage ∧ s.2.1.m_damage = m.m_damage := by
  induction cin with
  | nil =>
    intro p m w hp hm _ _ s hs
    rw [promptStates_nil, List.mem_singleton] at hs
    subst hs
    exact ⟨hp, le_refl _, hm, le_refl _, rfl, rfl, rfl⟩
  | cons c cs ih =>
    intro p m w hp hm hpd hmd s hs
    rw [promptStates_cons] at hs
    by_cases hsp : isSpace c = true
    · rw [if_pos hsp] at hs
      exact ih p m w hp hm hpd hmd s hs
    · rw [if_neg hsp, List.mem_cons] at hs
      rcases hs with rfl | hs
      · exact ⟨hp, le_refl _, hm, le_refl _, rfl, rfl, rfl⟩
      · obtain ⟨b, p', m', w', ht, _, hnone, _⟩ :=
          fightTurn_step RAND_MAX c p m (w.print "(R)un or (F)ight: ") hp hm hpd hmd
        rw [ht] at hs
        cases b with
        | some b => simp at hs
        | none =>
          simp only at hs
          obtain ⟨n1, n2, n3, n4, n5, n6, n7⟩ := hnone rfl
          obtain ⟨i1, i2, i3, i4, i5, i6, i7⟩ :=
            ih p' m' w' n1 n3 (by omega) (by omega) s hs
          exact ⟨i1, by omega, i3, by omega, by omega, by omega, by omega⟩

/-- How an encounter that a living player and a living monster enter can end:
with an escape, the player as at some prompt; with the player dead and the
monster alive; or with the monster dead and the player, one level higher,
at the health of the last prompt. -/
theorem fightLoop_outcome (RAND_MAX : Nat) (cin : List Char) :
    ∀ (p : Player) (m : Monster) (w : World) (e : Encounter),
      fightLoop RAND_MAX cin p m w = some e →
      0 < p.m_health → 0 < m.m_health → 0 ≤ p.m_damage → 0 ≤ m.m_damage →
      (e.escaped = true →
        0 < e.player.m_health ∧ e.player.m_health ≤ p.m_health ∧
        e.player.m_level = p.m_level ∧ e.player.m_damage = p.m_damage ∧
        0 < e.monster.m_health) ∧
      (e.escaped = false →
        (e.player.m_health ≤ 0 ∧ 0 < e.monster.m_health ∧
          e.player.m_level = p.m_level ∧ e.player.m_damage = p.m_damage) ∨
        (0 < e.player.m_health ∧ e.player.m_health ≤ p.m_health ∧
          e.monster.m_health ≤ 0 ∧ e.player.m_level = p.m_level + 1 ∧
          e.player.m_damage = p.m_damage + 1 ∧
          ∃ s, (promptStates RAND_MAX cin p m w).getLast? = some s ∧
            e.player.m_health = s.1.m_health)) := by
  induction cin with
  | nil =>
    intro p m w e h hp hm hpd hmd
    rw [fightLoop_nil] at h
    have hturn := (fightTurn_cases RAND_MAX '\x00' p m (w.print "(R)un or (F)ight: "))
    rcases hturn with ⟨hc, _⟩ | ⟨b2, p2, m2, w2, ht2, hb2, _, _, hsame, hdead, _⟩
    · exact absurd hc (by decide)
    · obtain ⟨rfl, rfl⟩ := hsame (by decide) (by decide)
      rw [ht2] at h
      cases b2 with
      | none => simp at h
      | some b2 =>
        cases b2 with
        | true => exact absurd rfl hb2
        | false =>
          rcases hdead rfl with hd | hd <;> omega
  | cons c cs ih =>
    intro p m w e h hp hm hpd hmd
    rw [fightLoop_cons] at h
    rw [promptStates_cons]
    by_cases hsp : isSpace c = true
    · rw [if_pos hsp] at h
      rw [if_pos hsp]
      exact ih p m w e h hp hm hpd hmd
    · rw [if_neg hsp] at h
      rw [if_neg hsp]
      obtain ⟨b, p', m', w', ht, htrue, hnone, hfalse⟩ :=
        fightTurn_step RAND_MAX c p m (w.print "(R)un or (F)ight: ") hp hm hpd hmd
      rw [ht] at h ⊢
      cases b with
      | some b =>
        simp only [Option.some.injEq] at h
        subst h
        cases b with
        | true =>
          obtain ⟨rfl, rfl⟩ := htrue rfl
          exact ⟨fun _ => ⟨hp, le_refl _, rfl, rfl, hm⟩, fun h => absurd h (by simp)⟩
        | false =>
          refine ⟨fun h => absurd h (by simp), fun _ => ?_⟩
          rcases hfalse rfl with ⟨f1, f2, f3, f4⟩ | ⟨f1, f2, f3, f4⟩
          · exact Or.inl ⟨f1, f2, f3, f4⟩
          · exact Or.inr ⟨by simp only; omega, by simp only; omega, f2, f3, f4,
              (p, m, w), rfl, f1⟩
      | none =>
        simp only at h
        obtain ⟨n1, n2, n3, n4, n5, n6, n7⟩ := hnone rfl
        obtain ⟨i1, i2⟩ := ih p' m' w' e h n1 n3 (by omega) (by omega)
        refine ⟨?_, ?_⟩
        · intro he
          obtain ⟨a1, a2, a3, a4, a5⟩ := i1 he
          exact ⟨a1, by omega, by omega, by omega, a5⟩
        · intro he
          rcases i2 he with ⟨a1, a2, a3, a4⟩ | ⟨a1, a2, a3, a4, a5, s, hs, a6⟩
          · exact Or.inl ⟨a1, a2, by omega, by omega⟩
          · refine Or.inr ⟨a1, by omega, a3, by omega, by omega, s, ?_, a6⟩
            simp only
            rw [List.getLast?_cons, hs]
            rfl

/-! ## Auxiliary facts about the encounters of a game -/

theorem catalog_damage_nonneg (type : MonsterType) (monster : Monster)
    (h : Monster.create type = some monster) : 0 ≤ monster.m_damage := by
  cases type <;> simp [Monster.create, monsterData, MonsterType.toNat] at h <;>
    subst h <;> decide

theorem GameInv_create (name : String) : GameInv (Player.create name) := by
  refine ⟨?_, ?_, ?_, ?_, ?_⟩ <;> simp [Player.create]

theorem isDead_iff (c : Creature) : c.isDead = true ↔ c.m_health ≤ 0 := by
  simp [Creature.isDead]

/-- The end of an encounter that the loop of `main` starts. -/
theorem encounter_end (RAND_MAX : Nat) (cin : List Char) (p : Player)
    (type : MonsterType) (monster : Monster) (w : World) (e : Encounter)
    (hinv : GameInv p) (hc : Monster.create type = some monster)
    (h : fightLoop RAND_MAX cin p monster w = some e) :
    e.player.m_damage = e.player.m_level ∧
    e.player.m_level = p.m_level + (if e.monster.isDead = true then 1 else 0) ∧
    e.player.m_health ≤ 10 ∧
    (e.escaped = true → 0 < e.player.m_health ∧ 0 < e.monster.m_health) ∧
    (e.escaped = false →
      (e.player.m_health ≤ 0 ∧ 0 < e.monster.m_health) ∨
      (0 < e.player.m_health ∧ e.monster.m_health ≤ 0 ∧
        ∃ s, (promptStates RAND_MAX cin p monster w).getLast? = some s ∧
          e.player.m_health = s.1.m_health)) ∧
    (continues e = true → GameInv e.player) := by
  obtain ⟨g1, g2, g3, g4, g5⟩ := hinv
  have hm := catalog_health_pos type monster hc
  have hmd := catalog_damage_nonneg type monster hc
  obtain ⟨o1, o2⟩ := fightLoop_outcome RAND_MAX cin p monster w e h (by omega) hm
    (by omega) hmd
  have hd := isDead_iff e.monster.toCreature
  cases hesc : e.escaped with
  | true =>
    obtain ⟨a1, a2, a3, a4, a5⟩ := o1 hesc
    have hnd : ¬ e.monster.isDead = true := fun hx => by
      have := hd.mp hx
      omega
    refine ⟨by omega, by rw [if_neg hnd]; omega, by omega, fun _ => ⟨a1, a5⟩,
      fun hx => absurd hx (by simp), fun _ => ⟨by omega, by omega, by omega, by omega, by omega⟩⟩
  | false =>
    rcases o2 hesc with ⟨a1, a2, a3, a4⟩ | ⟨a1, a2, a3, a4, a5, s, hs, a6⟩
    · have hnd : ¬ e.monster.isDead = true := fun hx => by
        have := hd.mp hx
        omega
      refine ⟨by omega, by rw [if_neg hnd]; omega, by omega, fun hx => absurd hx (by simp),
        fun _ => Or.inl ⟨a1, a2⟩, ?_⟩
      intro hcont
      simp only [continues, hesc, Creature.getHealth, Bool.false_or, Bool.and_eq_true,
        Bool.not_eq_true', decide_eq_false_iff_not] at hcont
      exact absurd a1 hcont.1
    · have hdd : e.monster.isDead = true := hd.mpr a3
      refine ⟨by omega, by rw [if_pos hdd]; omega, by omega, fun hx => absurd hx (by simp),
        fun _ => Or.inr ⟨a1, a3, s, hs, a6⟩, ?_⟩
      intro hcont
      simp only [continues, hesc, Creature.getHealth, Player.hasWon, Bool.false_or,
        Bool.and_eq_true, Bool.not_eq_true', decide_eq_false_iff_not, ge_iff_le,
        not_le] at hcont
      exact ⟨by omega, by omega, by omega, by omega, by omega⟩

theorem gameEncounters_zero (RAND_MAX : Nat) (cin : List Char) (p : Player) (w : World) :
    gameEncounters RAND_MAX 0 cin p w = [] := by
  rw [gameEncounters]

theorem gameEncounters_no_type (RAND_MAX fuel : Nat) (cin : List Char) (p : Player)
    (w : World) (ht : Monster.getRandomMonster RAND_MAX (w.randSeq w.randCalls) = none) :
    gameEncounters RAND_MAX (fuel + 1) cin p w = [] := by
  rw [gameEncounters, ht]

theorem gameEncounters_no_monster (RAND_MAX fuel : Nat) (cin : List Char) (p : Player)
    (w : World) (type : MonsterType)
    (ht : Monster.getRandomMonster RAND_MAX (w.randSeq w.randCalls) = some type)
    (hc : Monster.create type = none) :
    gameEncounters RAND_MAX (fuel + 1) cin p w = [] := by
  rw [gameEncounters, ht]
  simp only [hc]

theorem gameEncounters_succ (RAND_MAX fuel : Nat) (cin : List Char) (p : Player)
    (w : World) (type : MonsterType) (monster : Monster)
    (ht : Monster.getRandomMonster RAND_MAX (w.randSeq w.randCalls) = some type)
    (hc : Monster.create type = some monster) :
    gameEncounters RAND_MAX (fuel + 1) cin p w
      = match fightLoop RAND_MAX cin p monster
          ((w.stdRand.2.print (encounterText monster)).print (printTable p monster)) with
        | none =>
          [⟨p, type, monster, cin,
            (w.stdRand.2.print (encounterText monster)).print (printTable p monster), none⟩]
        | some e =>
          ⟨p, type, monster, cin,
            (w.stdRand.2.print (encounterText monster)).print (printTable p monster),
            some e⟩ ::
            (if continues e then gameEncounters RAND_MAX fuel e.cin e.player e.world
             else []) := by
  rw [gameEncounters, ht]
  simp only [hc]

theorem kills_cons (r : EncounterRun) (rs : List EncounterRun) :
    kills (r :: rs) = kills rs + (if r.killed = true then 1 else 0) := by
  unfold kills
  rw [List.countP_cons]

/-- Every call of `fightMonster` in a game that starts under `GameInv` is made
under `GameInv`, with a monster created from the catalog, and with the
player's level raised by the number of monsters killed before. -/
theorem gameEncounters_inv (RAND_MAX fuel : Nat) :
    ∀ (cin : List Char) (p : Player) (w : World), GameInv p →
      ∀ (pre : List EncounterRun) (r : EncounterRun) (post : List EncounterRun),
        gameEncounters RAND_MAX fuel cin p w = pre ++ r :: post →
        GameInv r.player ∧
        r.player.m_level = p.m_level + (kills pre : Int) ∧
        Monster.create r.type = some r.monster ∧
        r.result = fightLoop RAND_MAX r.cin r.player r.monster r.world ∧
        (∃ w0 : World, fightMonster RAND_MAX r.cin r.player w0 = r.result) ∧
        (post ≠ [] → ∃ e, r.result = some e ∧ continues e = true) := by
  induction fuel with
  | zero =>
    intro cin p w _ pre r post h
    rw [gameEncounters_zero] at h
    simp at h
  | succ fuel ih =>
    intro cin p w hinv pre r post h
    cases ht : Monster.getRandomMonster RAND_MAX (w.randSeq w.randCalls) with
    | none =>
      rw [gameEncounters_no_type RAND_MAX fuel cin p w ht] at h
      simp at h
    | some type =>
      cases hc : Monster.create type with
      | none =>
        rw [gameEncounters_no_monster RAND_MAX fuel cin p w type ht hc] at h
        simp at h
      | some monster =>
        rw [gameEncounters_succ RAND_MAX fuel cin p w type monster ht hc] at h
        have hsp : (Monster.getRandomMonster RAND_MAX (w.randSeq w.randCalls)).bind
            Monster.create = some monster := by
          rw [ht]
          exact hc
        have hfm := fightMonster_spawn RAND_MAX cin p w monster hsp
        cases hfl : fightLoop RAND_MAX cin p monster
            ((w.stdRand.2.print (encounterText monster)).print (printTable p monster)) with
        | none =>
          rw [hfl] at h hfm
          simp only at h
          rcases List.cons_eq_append_iff.mp h with ⟨rfl, hr⟩ | ⟨pre', rfl, hr⟩
          · simp only [List.cons.injEq] at hr
            obtain ⟨rfl, rfl⟩ := hr
            refine ⟨hinv, by simp [kills], hc, hfl.symm, ⟨w, hfm⟩, fun hx => absurd rfl hx⟩
          · simp at hr
        | some e =>
          rw [hfl] at h hfm
          simp only at h
          obtain ⟨e1, e2, e3, e4, e5, e6⟩ := encounter_end RAND_MAX cin p type monster _ e
            hinv hc hfl
          rcases List.cons_eq_append_iff.mp h with ⟨rfl, hr⟩ | ⟨pre', rfl, hr⟩
          · simp only [List.cons.injEq] at hr
            obtain ⟨rfl, rfl⟩ := hr
            refine ⟨hinv, by simp [kills], hc, hfl.symm, ⟨w, hfm⟩, ?_⟩
            intro hpost
            refine ⟨e, rfl, ?_⟩
            by_contra hcont
            rw [if_neg hcont] at hpost
            exact hpost rfl
          · by_cases hcont : continues e = true
            · rw [if_pos hcont] at hr
              obtain ⟨i1, i2, i3, i4, i5, i6⟩ :=
                ih e.cin e.player e.world (e6 hcont) pre' r post hr
              refine ⟨i1, ?_, i3, i4, i5, i6⟩
              rw [i2, e2, kills_cons]
              have hk : (EncounterRun.killed
                  ⟨p, type, monster, cin,
                    (w.stdRand.2.print (encounterText monster)).print
                      (printTable p monster), some e⟩) = e.monster.isDead := rfl
              rw [hk]
              split_ifs <;> push_cast <;> ring
            · rw [if_neg hcont] at hr
              simp at hr

/-- The body of the loop of `main` after an encounter, in terms of
`continues`. -/
theorem afterEncounter_eq (again : List Char → Player → World → Option GameOver)
    (e : Encounter) :
    afterEncounter again e
      = if continues e then again e.cin e.player e.world
        else if e.player.m_health ≤ 0 then
          some ⟨Ending.died e.player.m_level e.player.m_gold, e.player, e.cin,
            e.world.print (Ending.died e.player.m_level e.player.m_gold).message⟩
        else
          some ⟨Ending.won e.player.m_gold, e.player, e.cin,
            e.world.print (Ending.won e.player.m_gold).message⟩ := by
  unfold afterEncounter continues
  simp only [Creature.getHealth, Player.getLevel, Creature.getGold]
  cases hesc : e.escaped with
  | true => simp
  | false =>
    by_cases hd : e.player.m_health ≤ 0
    · simp [hd]
    · by_cases hw : e.player.hasWon = true
      · simp [hd, hw]
      · simp [hd, hw]

/-- The result of the loop of `main` comes from the last call of
`fightMonster`, after which the loop does not go round again. -/
theorem mainLoop_last_encounter (RAND_MAX fuel : Nat) :
    ∀ (cin : List Char) (p : Player) (w : World) (g : GameOver),
      mainLoop RAND_MAX fuel cin p w = some g →
      ∃ (pre : List EncounterRun) (r : EncounterRun) (e : Encounter),
        gameEncounters RAND_MAX fuel cin p w = pre ++ [r] ∧ r.result = some e ∧
        continues e = false ∧ g.player = e.player ∧ g.cin = e.cin ∧
        g.ending = (if e.player.m_health ≤ 0
          then Ending.died e.player.m_level e.player.m_gold
          else Ending.won e.player.m_gold) ∧
        g.world = e.world.print g.ending.message := by
  induction fuel with
  | zero =>
    intro cin p w g h
    rw [mainLoop] at h
    simp at h
  | succ fuel ih =>
    intro cin p w g h
    rw [mainLoop_succ] at h
    cases ht : Monster.getRandomMonster RAND_MAX (w.randSeq w.randCalls) with
    | none =>
      rw [fightMonster_no_spawn RAND_MAX cin p w (by rw [ht]; rfl)] at h
      simp at h
    | some type =>
      cases hc : Monster.create type with
      | none =>
        rw [fightMonster_no_spawn RAND_MAX cin p w (by rw [ht]; exact hc)] at h
        simp at h
      | some monster =>
        rw [fightMonster_spawn RAND_MAX cin p w monster (by rw [ht]; exact hc)] at h
        rw [gameEncounters_succ RAND_MAX fuel cin p w type monster ht hc]
        cases hfl : fightLoop RAND_MAX cin p monster
            ((w.stdRand.2.print (encounterText monster)).print (printTable p monster)) with
        | none =>
          rw [hfl] at h
          simp at h
        | some e =>
          rw [hfl] at h
          simp only [Option.some_bind] at h
          rw [afterEncounter_eq] at h
          by_cases hcont : continues e = true
          · rw [if_pos hcont] at h
            obtain ⟨pre, r, e', h1, h2⟩ := ih e.cin e.player e.world g h
            refine ⟨⟨p, type, monster, cin,
              (w.stdRand.2.print (encounterText monster)).print (printTable p monster),
              some e⟩ :: pre, r, e', ?_, h2⟩
            simp only [if_pos hcont, h1, List.cons_append]
          · rw [if_neg hcont] at h
            refine ⟨[], ⟨p, type, monster, cin,
              (w.stdRand.2.print (encounterText monster)).print (printTable p monster),
              some e⟩, e, ?_, rfl, by simpa using hcont, ?_⟩
            · simp only [if_neg hcont, List.nil_append]
            · by_cases hd : e.player.m_health ≤ 0
              · rw [if_pos hd, Option.some.injEq] at h
                subst h
                simp [hd]
              · rw [if_neg hd, Option.some.injEq] at h
                subst h
                simp [hd]

/-- The prompts listed by `promptStates` are prompts in the sense of
`AtPrompt`. -/
theorem promptStates_atPrompt (RAND_MAX : Nat) (cin : List Char) :
    ∀ (p : Player) (m : Monster) (w : World), AtPrompt RAND_MAX p m w →
      ∀ s ∈ promptStates RAND_MAX cin p m w, AtPrompt RAND_MAX s.1 s.2.1 s.2.2 := by
  induction cin with
  | nil =>
    intro p m w h s hs
    rw [promptStates_nil, List.mem_singleton] at hs
    subst hs
    exact h
  | cons c cs ih =>
    intro p m w h s hs
    rw [promptStates_cons] at hs
    by_cases hsp : isSpace c = true
    · rw [if_pos hsp] at hs
      exact ih p m w h s hs
    · rw [if_neg hsp, List.mem_cons] at hs
      rcases hs with rfl | hs
      · exact h
      · rcases hturn : fightTurn RAND_MAX c p m (w.print "(R)un or (F)ight: ") with
          ⟨b, p', m', w'⟩
        rw [hturn] at hs
        cases b with
        | some b => simp at hs
        | none =>
          simp only at hs
          exact ih p' m' w' (AtPrompt.turn c p p' m m' w w' h hturn) s hs

/-- The result of the loop of `fightMonster` comes from the pass made at the
last prompt listed by `promptStates`. -/
theorem fightLoop_last_prompt (RAND_MAX : Nat) (cin : List Char) :
    ∀ (p : Player) (m : Monster) (w : World) (e : Encounter),
      fightLoop RAND_MAX cin p m w = some e →
      ∃ (s : Player × Monster × World) (c : Char),
        (promptStates RAND_MAX cin p m w).getLast? = some s ∧
        fightTurn RAND_MAX c s.1 s.2.1 (s.2.2.print "(R)un or (F)ight: ")
          = (some e.escaped, e.player, e.monster, e.world) := by
  induction cin with
  | nil =>
    intro p m w e h
    rw [fightLoop_nil] at h
    rcases hturn : fightTurn RAND_MAX '\x00' p m (w.print "(R)un or (F)ight: ") with
      ⟨b, p', m', w'⟩
    rw [hturn] at h
    cases b with
    | none => simp at h
    | some b =>
      simp only [Option.some.injEq] at h
      subst h
      exact ⟨(p, m, w), '\x00', by rw [promptStates_nil]; rfl, hturn⟩
  | cons c cs ih =>
    intro p m w e h
    rw [fightLoop_cons] at h
    rw [promptStates_cons]
    by_cases hsp : isSpace c = true
    · rw [if_pos hsp] at h
      rw [if_pos hsp]
      exact ih p m w e h
    · rw [if_neg hsp] at h
      rw [if_neg hsp]
      rcases hturn : fightTurn RAND_MAX c p m (w.print "(R)un or (F)ight: ") with
        ⟨b, p', m', w'⟩
      rw [hturn] at h
      cases b with
      | some b =>
        simp only [Option.some.injEq] at h
        subst h
        exact ⟨(p, m, w), c, by simp only [hturn, List.getLast?_singleton], hturn⟩
      | none =>
        simp only at h
        obtain ⟨s, d, hs, hd⟩ := ih p' m' w' e h
        refine ⟨s, d, ?_, hd⟩
        simp only [hturn]
        rw [List.getLast?_cons, hs]
        rfl

/-- The function `main` is its loop run from a freshly created player. -/
theorem main_eq (RAND_MAX : Nat) (cin : List Char) (w : World) :
    main RAND_MAX cin w
      = mainLoop RAND_MAX ((readToken cin).2.length + 1) (readToken cin).2
          (Player.create (readToken cin).1)
          ((w.stdRand.2.print "Enter your name: ").print
            ("Welcome, " ++ (readToken cin).1 ++ "\n")) := rfl

/-- The encounters of `main` are those of its loop run from a freshly created
player. -/
theorem mainEncounters_eq (RAND_MAX : Nat) (cin : List Char) (w : World) :
    mainEncounters RAND_MAX cin w
      = gameEncounters RAND_MAX ((readToken cin).2.length + 1) (readToken cin).2
          (Player.create (readToken cin).1)
          ((w.stdRand.2.print "Enter your name: ").print
            ("Welcome, " ++ (readToken cin).1 ++ "\n")) := rfl

theorem type_32767_max :
    Monster.getRandomMonster 32767
      ((constWorld 32767).randSeq (constWorld 32767).randCalls) = some MonsterType.SLIME := by
  have h : getRandomNumber 32767 0 2 32767 = 2 := by
    rw [getRandomNumber_eq_div 32767 0 2 32767 (by decide)]
    decide
  show MonsterType.ofInt (getRandomNumber 32767 0 2 32767) = _
  rw [h]
  rfl

theorem heroSlimeRun_result : heroSlimeRun.result = some heroSlimeEncounter :=
  fightLoop_fight_kill 32767 [] hero slime heroSlimeWorld (by decide) (by decide)

theorem heroSlimeRun_game :
    gameEncounters 32767 1 ['f'] (Player.create "Hero") (constWorld 32767)
      = [] ++ heroSlimeRun :: [] := by
  rw [gameEncounters_succ 32767 0 ['f'] (Player.create "Hero") (constWorld 32767)
    MonsterType.SLIME slime type_32767_max rfl]
  have hfl := heroSlimeRun_result
  unfold heroSlimeRun at hfl ⊢
  simp only at hfl
  unfold heroSlimeWorld hero at hfl ⊢
  rw [hfl]
  simp only [gameEncounters_zero, ite_self, List.nil_append]

theorem heroSlimeRun_mem :
    heroSlimeRun ∈ gameEncounters 32767 1 ['f'] (Player.create "Hero") (constWorld 32767) := by
  rw [heroSlimeRun_game]
  simp

theorem catalog_row (type : MonsterType) (monster : Monster)
    (h : Monster.create type = some monster) :
    ∃ d : MonsterData, monsterData[type.toNat]? = some d ∧ monster.m_health = d.health := by
  cases type <;> simp [Monster.create, monsterData, MonsterType.toNat] at h <;>
    subst h <;> exact ⟨_, rfl, rfl⟩

/-! ## Invariants of the whole game -/

/-- Claim C16.  In a game of a freshly created player, on any input and any
generator outputs, every call of `fightMonster` is made with the player's
health between 1 and 10 and a monster created from the catalog, and at every
prompt of the encounter the player's health is between 1 and 10 and the
monster's health is between 1 and the health of its catalog row. -/
theorem game_prompt_health (RAND_MAX fuel : Nat) (cin : List Char) (name : String)
    (w : World) (r : EncounterRun)
    (hr : r ∈ gameEncounters RAND_MAX fuel cin (Player.create name) w) :
    1 ≤ r.player.m_health ∧ r.player.m_health ≤ 10 ∧
    Monster.create r.type = some r.monster ∧
    ∀ s ∈ promptStates RAND_MAX r.cin r.player r.monster r.world,
      1 ≤ s.1.m_health ∧ s.1.m_health ≤ 10 ∧ 1 ≤ s.2.1.m_health ∧
      ∃ d : MonsterData, monsterData[r.type.toNat]? = some d ∧ s.2.1.m_health ≤ d.health := by
  obtain ⟨pre, post, hdec⟩ := List.append_of_mem hr
  obtain ⟨⟨g1, g2, g3, g4, g5⟩, _, hc, _⟩ :=
    gameEncounters_inv RAND_MAX fuel cin (Player.create name) w (GameInv_create name)
      pre r post hdec
  refine ⟨g1, g2, hc, ?_⟩
  intro s hs
  obtain ⟨i1, i2, i3, i4, _⟩ := promptStates_inv RAND_MAX r.cin r.player r.monster r.world
    (by omega) (catalog_health_pos r.type r.monster hc) (by omega)
    (catalog_damage_nonneg r.type r.monster hc) s hs
  obtain ⟨d, hd1, hd2⟩ := catalog_row r.type r.monster hc
  exact ⟨by omega, by omega, by omega, d, hd1, by omega⟩

theorem game_prompt_health_witness :
    heroSlimeRun ∈ gameEncounters 32767 1 ['f'] (Player.create "Hero") (constWorld 32767) ∧
    1 ≤ heroSlimeRun.player.m_health ∧ heroSlimeRun.player.m_health ≤ 10 ∧
    Monster.create heroSlimeRun.type = some heroSlimeRun.monster ∧
    ∀ s ∈ promptStates 32767 heroSlimeRun.cin heroSlimeRun.player heroSlimeRun.monster
        heroSlimeRun.world,
      1 ≤ s.1.m_health ∧ s.1.m_health ≤ 10 ∧ 1 ≤ s.2.1.m_health ∧
      ∃ d : MonsterData, monsterData[heroSlimeRun.type.toNat]? = some d ∧
        s.2.1.m_health ≤ d.health :=
  ⟨heroSlimeRun_mem,
    game_prompt_health 32767 1 ['f'] "Hero" (constWorld 32767) heroSlimeRun heroSlimeRun_mem⟩

/-- Claim C17.  In a game of a freshly created player, whenever a call of
`fightMonster` returns false, exactly one of the player and the monster has
health 0 or below; when it is the monster, the player's health is what it was
at the last prompt, and if the player's level is then 20 or more the loop of
`main` ends with the victory message, not with the death message. -/
theorem game_false_one_dead (RAND_MAX fuel : Nat) (cin : List Char) (name : String)
    (w : World) (r : EncounterRun) (e : Encounter)
    (hr : r ∈ gameEncounters RAND_MAX fuel cin (Player.create name) w)
    (hres : r.result = some e) (hesc : e.escaped = false) :
    ((e.player.m_health ≤ 0 ∧ ¬ e.monster.m_health ≤ 0) ∨
      (¬ e.player.m_health ≤ 0 ∧ e.monster.m_health ≤ 0)) ∧
    (e.monster.m_health ≤ 0 →
      ∃ s, (promptStates RAND_MAX r.cin r.player r.monster r.world).getLast? = some s ∧
        e.player.m_health = s.1.m_health) ∧
    (e.monster.m_health ≤ 0 → 20 ≤ e.player.m_level →
      ∀ again : List Char → Player → World → Option GameOver,
        afterEncounter again e
          = some ⟨Ending.won e.player.m_gold, e.player, e.cin,
              e.world.print (Ending.won e.player.m_gold).message⟩) := by
  obtain ⟨pre, post, hdec⟩ := List.append_of_mem hr
  obtain ⟨hinv, _, hc, hfl, _⟩ :=
    gameEncounters_inv RAND_MAX fuel cin (Player.create name) w (GameInv_create name)
      pre r post hdec
  rw [hres] at hfl
  obtain ⟨_, _, _, _, e5, _⟩ := encounter_end RAND_MAX r.cin r.player r.type r.monster
    r.world e hinv hc hfl.symm
  have hone := e5 hesc
  refine ⟨?_, ?_, ?_⟩
  · rcases hone with ⟨a1, a2⟩ | ⟨a1, a2, _⟩
    · exact Or.inl ⟨a1, not_le.mpr a2⟩
    · exact Or.inr ⟨not_le.mpr a1, a2⟩
  · intro hm
    rcases hone with ⟨_, a2⟩ | ⟨_, _, hs⟩
    · omega
    · exact hs
  · intro hm hl again
    have hp : ¬ e.player.m_health ≤ 0 := by
      rcases hone with ⟨_, a2⟩ | ⟨a1, _, _⟩ <;> omega
    simp [afterEncounter, hesc, Creature.getHealth, hp, Player.hasWon, hl,
      Creature.getGold]

theorem game_false_one_dead_witness :
    heroSlimeRun ∈ gameEncounters 32767 1 ['f'] (Player.create "Hero") (constWorld 32767) ∧
    heroSlimeRun.result = some heroSlimeEncounter ∧
    heroSlimeEncounter.escaped = false ∧
    ((heroSlimeEncounter.player.m_health ≤ 0 ∧ ¬ heroSlimeEncounter.monster.m_health ≤ 0) ∨
      (¬ heroSlimeEncounter.player.m_health ≤ 0 ∧
        heroSlimeEncounter.monster.m_health ≤ 0)) ∧
    (heroSlimeEncounter.monster.m_health ≤ 0 →
      ∃ s, (promptStates 32767 heroSlimeRun.cin heroSlimeRun.player heroSlimeRun.monster
          heroSlimeRun.world).getLast? = some s ∧
        heroSlimeEncounter.player.m_health = s.1.m_health) ∧
    (heroSlimeEncounter.monster.m_health ≤ 0 → 20 ≤ heroSlimeEncounter.player.m_level →
      ∀ again : List Char → Player → World → Option GameOver,
        afterEncounter again heroSlimeEncounter
          = some ⟨Ending.won heroSlimeEncounter.player.m_gold, heroSlimeEncounter.player,
              heroSlimeEncounter.cin,
              heroSlimeEncounter.world.print
                (Ending.won heroSlimeEncounter.player.m_gold).message⟩) :=
  ⟨heroSlimeRun_mem, heroSlimeRun_result, rfl,
    game_false_one_dead 32767 1 ['f'] "Hero" (constWorld 32767) heroSlimeRun
      heroSlimeEncounter heroSlimeRun_mem heroSlimeRun_result rfl⟩

theorem kills_append (rs ss : List EncounterRun) : kills (rs ++ ss) = kills rs + kills ss := by
  unfold kills
  rw [List.countP_append]

/-- Claim C18.  In a game of a freshly created player, at every call of
`fightMonster`, at every prompt and at every return of the call, the player's
damage equals the player's level and the level is 1 plus the number of
monsters killed so far; the level at a return is at least the level at the
call, and the level at a call is at least the level at every earlier call. -/
theorem game_level_counts_kills (RAND_MAX fuel : Nat) (cin : List Char) (name : String)
    (w : World) (pre : List EncounterRun) (r : EncounterRun) (post : List EncounterRun)
    (hdec : gameEncounters RAND_MAX fuel cin (Player.create name) w = pre ++ r :: post) :
    r.player.m_damage = r.player.m_level ∧
    r.player.m_level = 1 + (kills pre : Int) ∧
    (∀ s ∈ promptStates RAND_MAX r.cin r.player r.monster r.world,
      s.1.m_damage = s.1.m_level ∧ s.1.m_level = 1 + (kills pre : Int)) ∧
    (∀ e, r.result = some e →
      e.player.m_damage = e.player.m_level ∧
      e.player.m_level = 1 + (kills (pre ++ [r]) : Int) ∧
      r.player.m_level ≤ e.player.m_level) ∧
    (∀ r' ∈ pre, r'.player.m_level ≤ r.player.m_level) := by
  have hinv0 := GameInv_create name
  obtain ⟨hinv, hlevel, hc, hfl, _⟩ :=
    gameEncounters_inv RAND_MAX fuel cin (Player.create name) w hinv0 pre r post hdec
  have hlevel' : r.player.m_level = 1 + (kills pre : Int) := hlevel
  obtain ⟨g1, g2, g3, g4, g5⟩ := hinv
  refine ⟨g3, hlevel', ?_, ?_, ?_⟩
  · intro s hs
    obtain ⟨_, _, _, _, i5, i6, _⟩ := promptStates_inv RAND_MAX r.cin r.player r.monster
      r.world (by omega) (catalog_health_pos r.type r.monster hc) (by omega)
      (catalog_damage_nonneg r.type r.monster hc) s hs
    exact ⟨by omega, by omega⟩
  · intro e hres
    rw [hres] at hfl
    obtain ⟨e1, e2, _⟩ := encounter_end RAND_MAX r.cin r.player r.type r.monster
      r.world e ⟨g1, g2, g3, g4, g5⟩ hc hfl.symm
    have hk : r.killed = e.monster.isDead := by
      unfold EncounterRun.killed
      rw [hres]
    have hkills : kills (pre ++ [r]) = kills pre + (if r.killed = true then 1 else 0) := by
      rw [kills_append, kills_cons]
      simp [kills]
    rw [hkills, hk]
    refine ⟨e1, ?_, ?_⟩
    · rw [e2, hlevel']
      split_ifs <;> push_cast <;> ring
    · rw [e2]
      split_ifs <;> omega
  · intro r' hr'
    obtain ⟨pre1, pre2, rfl⟩ := List.append_of_mem hr'
    have hdec' : gameEncounters RAND_MAX fuel cin (Player.create name) w
        = pre1 ++ r' :: (pre2 ++ r :: post) := by
      rw [hdec]
      simp
    obtain ⟨_, hl', _⟩ :=
      gameEncounters_inv RAND_MAX fuel cin (Player.create name) w hinv0 pre1 r' _ hdec'
    rw [hlevel, hl', kills_append]
    push_cast
    omega

theorem game_level_counts_kills_witness :
    gameEncounters 32767 1 ['f'] (Player.create "Hero") (constWorld 32767)
      = [] ++ heroSlimeRun :: [] ∧
    heroSlimeRun.player.m_damage = heroSlimeRun.player.m_level ∧
    heroSlimeRun.player.m_level = 1 + (kills [] : Int) ∧
    (∀ s ∈ promptStates 32767 heroSlimeRun.cin heroSlimeRun.player heroSlimeRun.monster
        heroSlimeRun.world,
      s.1.m_damage = s.1.m_level ∧ s.1.m_level = 1 + (kills [] : Int)) ∧
    (∀ e, heroSlimeRun.result = some e →
      e.player.m_damage = e.player.m_level ∧
      e.player.m_level = 1 + (kills ([] ++ [heroSlimeRun]) : Int) ∧
      heroSlimeRun.player.m_level ≤ e.player.m_level) ∧
    (∀ r' ∈ ([] : List EncounterRun), r'.player.m_level ≤ heroSlimeRun.player.m_level) :=
  ⟨heroSlimeRun_game,
    game_level_counts_kills 32767 1 ['f'] "Hero" (constWorld 32767) [] heroSlimeRun []
      heroSlimeRun_game⟩

/-- Claim C19.  In a game of a freshly created player the level never exceeds
20: every call of `fightMonster` is made at a level from 1 to 19, the level is
the same at every prompt of the call and at most 20 when the call returns; and
whenever the loop of `main`, or `main` itself, ends with the victory message,
the player's level is exactly 20 and the player's health is positive. -/
theorem game_level_at_most_20 (RAND_MAX fuel : Nat) (cin : List Char) (name : String)
    (w : World) :
    (∀ r ∈ gameEncounters RAND_MAX fuel cin (Player.create name) w,
      1 ≤ r.player.m_level ∧ r.player.m_level ≤ 19 ∧
      (∀ s ∈ promptStates RAND_MAX r.cin r.player r.monster r.world,
        s.1.m_level = r.player.m_level) ∧
      (∀ e, r.result = some e →
        r.player.m_level ≤ e.player.m_level ∧ e.player.m_level ≤ 20)) ∧
    (∀ (g : GameOver) (gold : Int),
      mainLoop RAND_MAX fuel cin (Player.create name) w = some g →
      g.ending = Ending.won gold →
      g.player.m_level = 20 ∧ 0 < g.player.m_health ∧ gold = g.player.m_gold) ∧
    (∀ (g : GameOver) (gold : Int),
      main RAND_MAX cin w = some g → g.ending = Ending.won gold →
      g.player.m_level = 20 ∧ 0 < g.player.m_health ∧ gold = g.player.m_gold) := by
  have hwin : ∀ (fuel' : Nat) (cin' : List Char) (name' : String) (w' : World)
      (g : GameOver) (gold : Int),
      mainLoop RAND_MAX fuel' cin' (Player.create name') w' = some g →
      g.ending = Ending.won gold →
      g.player.m_level = 20 ∧ 0 < g.player.m_health ∧ gold = g.player.m_gold := by
    intro fuel' cin' name' w' g gold hg hend
    obtain ⟨pre, r, e, hdec, hres, hcont, hp, _, hending, _⟩ :=
      mainLoop_last_encounter RAND_MAX fuel' cin' (Player.create name') w' g hg
    obtain ⟨hinv, _, hc, hfl, _⟩ :=
      gameEncounters_inv RAND_MAX fuel' cin' (Player.create name') w'
        (GameInv_create name') pre r [] hdec
    rw [hres] at hfl
    obtain ⟨_, e2, _, _, _, _⟩ := encounter_end RAND_MAX r.cin r.player r.type r.monster
      r.world e hinv hc hfl.symm
    obtain ⟨_, _, _, _, g5⟩ := hinv
    rw [hend] at hending
    by_cases hd : e.player.m_health ≤ 0
    · rw [if_pos hd] at hending
      exact absurd hending (by simp)
    · rw [if_neg hd, Ending.won.injEq] at hending
      have hcont' := hcont
      simp only [continues, Creature.getHealth, Player.hasWon, Bool.or_eq_false_iff,
        Bool.and_eq_false_iff, Bool.not_eq_false', decide_eq_true_eq] at hcont'
      have hwon : 20 ≤ e.player.m_level := by
        rcases hcont'.2 with h | h
        · exact absurd h hd
        · exact h
      have hle : e.player.m_level ≤ 20 := by
        rw [e2]
        split_ifs <;> omega
      rw [hp]
      exact ⟨by omega, by omega, hending⟩
  refine ⟨?_, hwin fuel cin name w, ?_⟩
  · intro r hr
    obtain ⟨pre, post, hdec⟩ := List.append_of_mem hr
    obtain ⟨hinv, _, hc, hfl, _⟩ :=
      gameEncounters_inv RAND_MAX fuel cin (Player.create name) w (GameInv_create name)
        pre r post hdec
    obtain ⟨g1, g2, g3, g4, g5⟩ := hinv
    refine ⟨g4, g5, ?_, ?_⟩
    · intro s hs
      exact (promptStates_inv RAND_MAX r.cin r.player r.monster r.world
        (by omega) (catalog_health_pos r.type r.monster hc) (by omega)
        (catalog_damage_nonneg r.type r.monster hc) s hs).2.2.2.2.1
    · intro e hres
      rw [hres] at hfl
      obtain ⟨_, e2, _⟩ := encounter_end RAND_MAX r.cin r.player r.type r.monster
        r.world e ⟨g1, g2, g3, g4, g5⟩ hc hfl.symm
      rw [e2]
      split_ifs <;> constructor <;> omega
  · intro g gold hg hend
    rw [main_eq] at hg
    exact hwin _ _ _ _ g gold hg hend

/-- The game of a fresh "Hero" who kills nineteen slimes in a row ends with the
victory message for 190 gold. -/
theorem victory_run_ending :
    (mainLoop 32767 19 (List.replicate 19 'f') (Player.create "Hero") (constWorld 32767)).map
      (fun g => g.ending) = some (Ending.won 190) := by
  decide!

theorem game_level_at_most_20_witness :
    ∃ g : GameOver,
      mainLoop 32767 19 (List.replicate 19 'f') (Player.create "Hero") (constWorld 32767)
        = some g ∧
      g.ending = Ending.won 190 ∧
      g.player.m_level = 20 ∧ 0 < g.player.m_health ∧ (190 : Int) = g.player.m_gold := by
  have h := victory_run_ending
  cases hg : mainLoop 32767 19 (List.replicate 19 'f') (Player.create "Hero")
      (constWorld 32767) with
  | none =>
    rw [hg] at h
    simp at h
  | some g =>
    rw [hg] at h
    simp only [Option.map_some', Option.some.injEq] at h
    exact ⟨g, rfl, h,
      (game_level_at_most_20 32767 19 (List.replicate 19 'f') "Hero" (constWorld 32767)).2.1
        g 190 hg h⟩

/-! ## Machine arithmetic: auxiliary facts -/

theorem wrapInt_of_range (z : Int) (h1 : -2 ^ 31 ≤ z) (h2 : z < 2 ^ 31) : wrapInt z = z := by
  unfold wrapInt
  rw [Int.emod_eq_of_lt (by omega) (by omega)]
  omega

theorem abs_eq_natAbs_div_den (x : ℚ) : |x| = (x.num.natAbs : ℚ) / (x.den : ℚ) := by
  conv_lhs => rw [← Rat.num_div_den x]
  rw [abs_div, Nat.cast_natAbs, Nat.abs_cast]
  push_cast
  rfl

/-- The binary exponent brackets the value between two powers of two. -/
theorem binaryExponent_spec (x : ℚ) (hx : x ≠ 0) :
    (2 : ℚ) ^ binaryExponent x ≤ |x| ∧ |x| < (2 : ℚ) ^ (binaryExponent x + 1) := by
  have ha0 : x.num.natAbs ≠ 0 := by
    rw [Ne, Int.natAbs_eq_zero, Rat.num_eq_zero]
    exact hx
  have hb0 : 0 < x.den := x.den_pos
  have ha1 : (2 : ℚ) ^ (Nat.log2 x.num.natAbs) ≤ (x.num.natAbs : ℚ) := by
    exact_mod_cast Nat.log2_self_le ha0
  have ha2 : (x.num.natAbs : ℚ) < (2 : ℚ) ^ (Nat.log2 x.num.natAbs + 1) := by
    exact_mod_cast (Nat.lt_log2_self (n := x.num.natAbs))
  have hb1 : (2 : ℚ) ^ (Nat.log2 x.den) ≤ (x.den : ℚ) := by
    exact_mod_cast Nat.log2_self_le (Nat.pos_iff_ne_zero.mp hb0)
  have hb2 : (x.den : ℚ) < (2 : ℚ) ^ (Nat.log2 x.den + 1) := by
    exact_mod_cast (Nat.lt_log2_self (n := x.den))
  have hbq : (0 : ℚ) < (x.den : ℚ) := by exact_mod_cast hb0
  have h2 : (2 : ℚ) ≠ 0 := by norm_num
  have habs := abs_eq_natAbs_div_den x
  unfold binaryExponent
  split_ifs with hle
  · refine ⟨hle, ?_⟩
    rw [habs, div_lt_iff₀ hbq]
    calc (x.num.natAbs : ℚ) < (2 : ℚ) ^ (Nat.log2 x.num.natAbs + 1) := ha2
      _ = (2 : ℚ) ^ ((Nat.log2 x.num.natAbs : Int) - (Nat.log2 x.den : Int) + 1)
            * (2 : ℚ) ^ (Nat.log2 x.den) := by
          rw [← zpow_natCast, ← zpow_natCast, ← zpow_add₀ h2]
          congr 1
          push_cast
          ring
      _ ≤ (2 : ℚ) ^ ((Nat.log2 x.num.natAbs : Int) - (Nat.log2 x.den : Int) + 1)
            * (x.den : ℚ) :=
          mul_le_mul_of_nonneg_left hb1 (zpow_pos (by norm_num) _).le
  · refine ⟨?_, ?_⟩
    · rw [habs, le_div_iff₀ hbq]
      calc (2 : ℚ) ^ ((Nat.log2 x.num.natAbs : Int) - (Nat.log2 x.den : Int) - 1)
            * (x.den : ℚ)
          ≤ (2 : ℚ) ^ ((Nat.log2 x.num.natAbs : Int) - (Nat.log2 x.den : Int) - 1)
            * (2 : ℚ) ^ (Nat.log2 x.den + 1) :=
            mul_le_mul_of_nonneg_left hb2.le (zpow_pos (by norm_num) _).le
        _ = (2 : ℚ) ^ (Nat.log2 x.num.natAbs) := by
            rw [← zpow_natCast, ← zpow_natCast, ← zpow_add₀ h2]
            congr 1
            push_cast
            ring
        _ ≤ (x.num.natAbs : ℚ) := ha1
    · rw [sub_add_cancel]
      exact not_le.mp hle

/-- The binary exponent is the only integer whose powers of two bracket the
value. -/
theorem binaryExponent_eq (x : ℚ) (e : Int) (h1 : (2 : ℚ) ^ e ≤ |x|)
    (h2 : |x| < (2 : ℚ) ^ (e + 1)) : binaryExponent x = e := by
  have hx : x ≠ 0 := by
    rintro rfl
    rw [abs_zero] at h1
    exact absurd h1 (not_le.mpr (zpow_pos (by norm_num) _))
  obtain ⟨b1, b2⟩ := binaryExponent_spec x hx
  have hlt1 : binaryExponent x < e + 1 :=
    (zpow_lt_zpow_iff_right₀ (by norm_num : (1 : ℚ) < 2)).mp (lt_of_le_of_lt b1 h2)
  have hlt2 : e < binaryExponent x + 1 :=
    (zpow_lt_zpow_iff_right₀ (by norm_num : (1 : ℚ) < 2)).mp (lt_of_le_of_lt h1 b2)
  omega

theorem roundHalfEven_intCast (z : Int) : roundHalfEven (z : ℚ) = z := by
  unfold roundHalfEven
  rw [Int.floor_intCast, sub_self, if_pos (by norm_num)]

theorem roundHalfEven_error (q : ℚ) : |(roundHalfEven q : ℚ) - q| ≤ 1 / 2 := by
  have h1 := Int.floor_le q
  have h2 := Int.lt_floor_add_one q
  unfold roundHalfEven
  rw [abs_sub_le_iff]
  split_ifs with ha hb hc
  · constructor <;> linarith
  · push_cast
    constructor <;> linarith
  · have heq : q - ⌊q⌋ = 1 / 2 := le_antisymm (not_lt.mp hb) (not_lt.mp ha)
    constructor <;> linarith
  · have heq : q - ⌊q⌋ = 1 / 2 := le_antisymm (not_lt.mp hb) (not_lt.mp ha)
    push_cast
    constructor <;> linarith

/-- The rounded value is a multiple of the unit in the last place, and differs
from the exact value by at most half of that unit. -/
theorem roundDouble_spec (x : ℚ) (hx : x ≠ 0) :
    (∃ k : Int, roundDouble x = (k : ℚ) * (2 : ℚ) ^ (binaryExponent x - 52)) ∧
    |roundDouble x - x| ≤ (2 : ℚ) ^ (binaryExponent x - 53) := by
  have hu : (0 : ℚ) < (2 : ℚ) ^ (binaryExponent x - 52) := zpow_pos (by norm_num) _
  have hdef : roundDouble x
      = (roundHalfEven (x / 2 ^ (binaryExponent x - 52)) : ℚ)
          * 2 ^ (binaryExponent x - 52) := by
    unfold roundDouble
    rw [if_neg hx]
  refine ⟨⟨_, hdef⟩, ?_⟩
  have herr := roundHalfEven_error (x / 2 ^ (binaryExponent x - 52))
  have hhalf : (2 : ℚ) ^ (binaryExponent x - 53) = 1 / 2 * 2 ^ (binaryExponent x - 52) := by
    have : binaryExponent x - 53 = -1 + (binaryExponent x - 52) := by ring
    rw [this, zpow_add₀ (by norm_num : (2 : ℚ) ≠ 0)]
    norm_num
  rw [hdef, hhalf]
  have hsub : ∀ k u : ℚ, u ≠ 0 → k * u - x = (k - x / u) * u := by
    intro k u hu0
    field_simp
  rw [hsub _ _ hu.ne', abs_mul, abs_of_pos hu]
  exact mul_le_mul_of_nonneg_right herr hu.le

/-- A value with at most 53 significant bits is a `double`: rounding returns
it unchanged. -/
theorem roundDouble_representable (m j : Int) (hm : |m| < 2 ^ 53) :
    roundDouble ((m : ℚ) * (2 : ℚ) ^ j) = (m : ℚ) * (2 : ℚ) ^ j := by
  have h2 : (2 : ℚ) ≠ 0 := by norm_num
  by_cases hm0 : m = 0
  · subst hm0
    simp [roundDouble]
  have hx : (m : ℚ) * (2 : ℚ) ^ j ≠ 0 :=
    mul_ne_zero (by exact_mod_cast hm0) (zpow_ne_zero _ h2)
  obtain ⟨b1, _⟩ := binaryExponent_spec _ hx
  have hj : (0 : ℚ) < (2 : ℚ) ^ j := zpow_pos (by norm_num) _
  have habs : |(m : ℚ) * (2 : ℚ) ^ j| < (2 : ℚ) ^ (53 + j) := by
    rw [abs_mul, abs_of_pos hj, zpow_add₀ h2]
    apply mul_lt_mul_of_pos_right _ hj
    have : ((|m| : Int) : ℚ) < ((2 ^ 53 : Int) : ℚ) := by exact_mod_cast hm
    rw [Int.cast_abs] at this
    rw [zpow_ofNat]
    exact_mod_cast this
  have he : binaryExponent ((m : ℚ) * (2 : ℚ) ^ j) < 53 + j :=
    (zpow_lt_zpow_iff_right₀ (by norm_num : (1 : ℚ) < 2)).mp (lt_of_le_of_lt b1 habs)
  have hdef : roundDouble ((m : ℚ) * (2 : ℚ) ^ j)
      = (roundHalfEven ((m : ℚ) * (2 : ℚ) ^ j
            / 2 ^ (binaryExponent ((m : ℚ) * (2 : ℚ) ^ j) - 52)) : ℚ)
          * 2 ^ (binaryExponent ((m : ℚ) * (2 : ℚ) ^ j) - 52) := by
    unfold roundDouble
    rw [if_neg hx]
  rw [hdef]
  generalize binaryExponent ((m : ℚ) * (2 : ℚ) ^ j) = e at he
  obtain ⟨n, hn⟩ : ∃ n : Nat, j - (e - 52) = (n : Int) :=
    Int.eq_ofNat_of_zero_le (by omega)
  have hquot : (m : ℚ) * (2 : ℚ) ^ j / 2 ^ (e - 52) = ((m * 2 ^ n : Int) : ℚ) := by
    rw [mul_div_assoc, ← zpow_sub₀ h2, hn, zpow_natCast]
    push_cast
    ring
  rw [hquot, roundHalfEven_intCast]
  push_cast
  rw [mul_assoc, ← zpow_natCast, ← hn, ← zpow_add₀ h2]
  congr 2
  ring

theorem roundDouble_intCast (m : Int) (hm : |m| < 2 ^ 53) : roundDouble (m : ℚ) = (m : ℚ) := by
  have h := roundDouble_representable m 0 hm
  simpa using h

theorem roundDouble_natCast (n : Nat) (hn : n < 2 ^ 53) : roundDouble (n : ℚ) = (n : ℚ) := by
  have h := roundDouble_intCast (n : Int) (by rw [abs_of_nonneg (Int.ofNat_nonneg n)]; exact_mod_cast hn)
  simpa using h

theorem roundDouble_zero : roundDouble 0 = 0 := by
  simp [roundDouble]

theorem wrapInt_range (z : Int) : -2 ^ 31 ≤ wrapInt z ∧ wrapInt z < 2 ^ 31 := by
  unfold wrapInt
  have h1 := Int.emod_nonneg (z + 2 ^ 31) (by norm_num : (2 ^ 32 : Int) ≠ 0)
  have h2 := Int.emod_lt_of_pos (z + 2 ^ 31) (by norm_num : (0 : Int) < 2 ^ 32)
  constructor <;> omega

theorem roundDouble_wrapInt (z : Int) : roundDouble (wrapInt z : ℚ) = (wrapInt z : ℚ) := by
  obtain ⟨h1, h2⟩ := wrapInt_range z
  apply roundDouble_intCast
  rw [abs_lt]
  constructor <;> omega

/-- When `RAND_MAX + 1` is a power of two, `fraction` and the product
`std::rand() * fraction` are exact. -/
theorem scaled_exact (RAND_MAX k r : Nat) (hM : RAND_MAX + 1 = 2 ^ k) (hk : k ≤ 31)
    (hr : r ≤ RAND_MAX) :
    roundDouble (roundDouble (r : ℚ)
        * roundDouble (1 / roundDouble (roundDouble (RAND_MAX : ℚ) + 1)))
      = (r : ℚ) * (2 : ℚ) ^ (-(k : Int)) := by
  have hpow : (2 : Nat) ^ k ≤ 2 ^ 31 := Nat.pow_le_pow_right (by norm_num) hk
  have hRM : RAND_MAX < 2 ^ 53 := by
    have : (2 : Nat) ^ 31 < 2 ^ 53 := by norm_num
    omega
  have hMq : (RAND_MAX : ℚ) + 1 = (2 : ℚ) ^ (k : Int) := by
    rw [zpow_natCast]
    exact_mod_cast hM
  have h1 : roundDouble ((2 : ℚ) ^ (k : Int)) = (2 : ℚ) ^ (k : Int) := by
    have := roundDouble_representable 1 k (by norm_num)
    simpa using this
  have h2 : roundDouble (1 / (2 : ℚ) ^ (k : Int)) = (2 : ℚ) ^ (-(k : Int)) := by
    have := roundDouble_representable 1 (-(k : Int)) (by norm_num)
    rw [one_div, ← zpow_neg]
    simpa using this
  have hr53 : r < 2 ^ 53 := by omega
  rw [roundDouble_natCast RAND_MAX hRM, hMq, h1, h2, roundDouble_natCast r hr53]
  have := roundDouble_representable (r : Int) (-(k : Int))
    (by rw [abs_of_nonneg (Int.ofNat_nonneg r)]; exact_mod_cast hr53)
  simpa using this

/-- The machine computation when `RAND_MAX + 1` is a power of two: only the
last product is rounded. -/
theorem getRandomNumberDouble_pow2 (RAND_MAX k r : Nat) (min max : Int)
    (hM : RAND_MAX + 1 = 2 ^ k) (hk : k ≤ 31) (hr : r ≤ RAND_MAX) :
    getRandomNumberDouble RAND_MAX min max r
      = wrapInt (min + wrapInt (staticCastInt (roundDouble
          ((wrapInt (wrapInt (max - min) + 1) : ℚ) * ((r : ℚ) * (2 : ℚ) ^ (-(k : Int))))))) := by
  unfold getRandomNumberDouble
  rw [scaled_exact RAND_MAX k r hM hk hr, roundDouble_wrapInt]

/-- The machine computation agrees with the exact one when `RAND_MAX + 1` is a
power of two, `max - min + 1` does not overflow and its product with
`RAND_MAX` has at most 53 bits. -/
theorem getRandomNumberDouble_eq (RAND_MAX k r : Nat) (min max : Int)
    (hM : RAND_MAX + 1 = 2 ^ k) (hk : k ≤ 31) (hr : r ≤ RAND_MAX)
    (hlo : -2 ^ 31 ≤ min) (hhi : max ≤ 2 ^ 31 - 1) (hmin : min ≤ max)
    (hn : max - min + 1 < 2 ^ 31) (hexact : (max - min + 1) * (RAND_MAX : Int) < 2 ^ 53) :
    getRandomNumberDouble RAND_MAX min max r = getRandomNumber RAND_MAX min max r := by
  rw [getRandomNumberDouble_pow2 RAND_MAX k r min max hM hk hr]
  have hw1 : wrapInt (max - min) = max - min := wrapInt_of_range _ (by omega) (by omega)
  have hw2 : wrapInt (max - min + 1) = max - min + 1 := wrapInt_of_range _ (by omega) (by omega)
  rw [hw1, hw2]
  have hnr : |(max - min + 1) * (r : Int)| < 2 ^ 53 := by
    have h0 : 0 ≤ (max - min + 1) * (r : Int) := mul_nonneg (by omega) (Int.ofNat_nonneg r)
    rw [abs_of_nonneg h0]
    have hr' : (r : Int) ≤ (RAND_MAX : Int) := by exact_mod_cast hr
    have : (max - min + 1) * (r : Int) ≤ (max - min + 1) * (RAND_MAX : Int) :=
      mul_le_mul_of_nonneg_left hr' (by omega)
    omega
  have hprod : ((max - min + 1 : Int) : ℚ) * ((r : ℚ) * (2 : ℚ) ^ (-(k : Int)))
      = (((max - min + 1) * (r : Int) : Int) : ℚ) * (2 : ℚ) ^ (-(k : Int)) := by
    push_cast
    ring
  rw [hprod, roundDouble_representable _ _ hnr, ← hprod]
  have hfr : (2 : ℚ) ^ (-(k : Int)) = fraction RAND_MAX := by
    unfold fraction
    rw [zpow_neg, zpow_natCast, one_div]
    congr 1
    exact_mod_cast hM.symm
  rw [hfr]
  have hdef : getRandomNumber RAND_MAX min max r
      = min + staticCastInt (((max - min + 1 : Int) : ℚ) * ((r : ℚ) * fraction RAND_MAX)) := rfl
  obtain ⟨b1, b2⟩ := getRandomNumber_bounds RAND_MAX min max r hmin hr
  rw [hdef] at b1 b2 ⊢
  have hin : wrapInt (staticCastInt (((max - min + 1 : Int) : ℚ) * ((r : ℚ) * fraction RAND_MAX)))
      = staticCastInt (((max - min + 1 : Int) : ℚ) * ((r : ℚ) * fraction RAND_MAX)) :=
    wrapInt_of_range _ (by omega) (by omega)
  rw [hin, wrapInt_of_range _ (by omega) (by omega)]

theorem staticCastInt_of_nonneg (x : ℚ) (hx : 0 ≤ x) : staticCastInt x = ⌊x⌋ := by
  unfold staticCastInt
  rw [if_pos hx]

theorem roundHalfEven_eq (q : ℚ) (z : Int) (h1 : (z : ℚ) - 1 / 2 < q) (h2 : q < (z : ℚ) + 1 / 2) :
    roundHalfEven q = z := by
  have hf1 := Int.floor_le q
  have hf2 := Int.lt_floor_add_one q
  have hz1 : z - 1 < ⌊q⌋ + 1 := by
    have : ((z - 1 : Int) : ℚ) < ((⌊q⌋ + 1 : Int) : ℚ) := by
      push_cast
      linarith
    exact_mod_cast this
  have hz2 : ⌊q⌋ < z + 1 := by
    have : ((⌊q⌋ : Int) : ℚ) < ((z + 1 : Int) : ℚ) := by
      push_cast
      linarith
    exact_mod_cast this
  unfold roundHalfEven
  rcases (by omega : ⌊q⌋ = z ∨ ⌊q⌋ = z - 1) with h | h
  · rw [h]
    rw [if_pos (by linarith)]
  · rw [h]
    have h3 : ¬ (q - ((z - 1 : Int) : ℚ) < 1 / 2) := by
      push_cast
      linarith
    have h4 : (1 : ℚ) / 2 < q - ((z - 1 : Int) : ℚ) := by
      push_cast
      linarith
    rw [if_neg h3, if_pos h4]
    omega

/-! ## The random number source in machine arithmetic -/

/-- The draw `2^31 - 1` with the range `0 .. 2^31 - 1` on a machine whose
`RAND_MAX` is `2^31 - 1`: `max - min + 1` wraps to `-2^31`. -/
theorem getRandomNumberDouble_wraps :
    getRandomNumberDouble 2147483647 0 2147483647 2147483647 = -2147483647 := by
  rw [getRandomNumberDouble_pow2 2147483647 31 2147483647 0 2147483647 (by norm_num)
    (by norm_num) (by norm_num)]
  have hw : wrapInt (wrapInt (2147483647 - 0) + 1) = -2147483648 := by decide
  rw [hw]
  have hx : ((-2147483648 : Int) : ℚ) * (((2147483647 : Nat) : ℚ) * (2 : ℚ) ^ (-((31 : Nat) : Int)))
      = ((-2147483647 : Int) : ℚ) := by
    norm_num [zpow_neg]
  rw [hx, roundDouble_intCast _ (by norm_num)]
  have hs : staticCastInt ((-2147483647 : Int) : ℚ) = -2147483647 := by
    unfold staticCastInt
    rw [if_neg (by norm_num), Int.ceil_intCast]
  rw [hs]
  decide

/-- A draw at which the rounding of the `double` product changes the result:
with `RAND_MAX = 2^31 - 1` and the range `0 .. 2147483644`, the draw
`715827883` gives `715827882` on the machine and `715827881` in exact
arithmetic. -/
theorem getRandomNumberDouble_rounds :
    getRandomNumberDouble 2147483647 0 2147483644 715827883 = 715827882 ∧
      getRandomNumber 2147483647 0 2147483644 715827883 = 715827881 := by
  constructor
  · rw [getRandomNumberDouble_pow2 2147483647 31 715827883 0 2147483644 (by norm_num)
      (by norm_num) (by norm_num)]
    have hw : wrapInt (wrapInt (2147483644 - 0) + 1) = 2147483645 := by decide
    rw [hw]
    have hx : ((2147483645 : Int) : ℚ) * (((715827883 : Nat) : ℚ) * (2 : ℚ) ^ (-((31 : Nat) : Int)))
        = 1537228671377473535 / 2147483648 := by
      norm_num [zpow_neg]
    rw [hx]
    have he : binaryExponent ((1537228671377473535 : ℚ) / 2147483648) = 29 := by
      apply binaryExponent_eq
      · rw [abs_of_nonneg (by norm_num)]
        norm_num
      · rw [abs_of_nonneg (by norm_num)]
        norm_num
    have hr : roundDouble ((1537228671377473535 : ℚ) / 2147483648) = 715827882 := by
      unfold roundDouble
      rw [if_neg (by norm_num), he]
      rw [roundHalfEven_eq _ 6004799497568256 (by norm_num [zpow_neg]) (by norm_num [zpow_neg])]
      norm_num [zpow_neg]
    rw [hr]
    have hs : staticCastInt (715827882 : ℚ) = 715827882 := by
      rw [staticCastInt_of_nonneg _ (by norm_num)]
      exact_mod_cast Int.floor_intCast (715827882 : Int)
    rw [hs]
    decide
  · norm_num [getRandomNumber, fraction, staticCastInt, Int.floor_eq_iff]

/-- With `RAND_MAX = 2^31 - 1` and the range `0 .. 2147483629`, the draws up to
`1073741833` give a rounded product below `2^30`. -/
theorem product_low (r : Nat) (hr : r ≤ 1073741833) :
    0 ≤ roundDouble ((2147483630 : ℚ) * ((r : ℚ) * (2 : ℚ) ^ (-((31 : Nat) : Int)))) ∧
      roundDouble ((2147483630 : ℚ) * ((r : ℚ) * (2 : ℚ) ^ (-((31 : Nat) : Int))))
        < 1073741824 := by
  rcases Nat.eq_zero_or_pos r with h0 | hpos
  · subst h0
    simp [roundDouble_zero]
  · have hr1 : (1 : ℚ) ≤ (r : ℚ) := by exact_mod_cast hpos
    have hr2 : (r : ℚ) ≤ 1073741833 := by exact_mod_cast hr
    have hx : (2147483630 : ℚ) * ((r : ℚ) * (2 : ℚ) ^ (-((31 : Nat) : Int)))
        = (2147483630 : ℚ) * (r : ℚ) / 2147483648 := by
      norm_num [zpow_neg]
      ring
    rw [hx]
    have hx1 : (2147483630 : ℚ) / 2147483648 ≤ (2147483630 : ℚ) * (r : ℚ) / 2147483648 := by
      rw [div_le_div_iff_of_pos_right (by norm_num)]
      linarith
    have hx2 : (2147483630 : ℚ) * (r : ℚ) / 2147483648
        ≤ (2147483630 : ℚ) * 1073741833 / 2147483648 := by
      rw [div_le_div_iff_of_pos_right (by norm_num)]
      linarith
    have hxpos : (0 : ℚ) < (2147483630 : ℚ) * (r : ℚ) / 2147483648 := by
      have : (0 : ℚ) < (2147483630 : ℚ) / 2147483648 := by norm_num
      linarith
    obtain ⟨he1, _⟩ := binaryExponent_spec _ (ne_of_gt hxpos)
    obtain ⟨_, herr⟩ := roundDouble_spec _ (ne_of_gt hxpos)
    rw [abs_of_pos hxpos] at he1
    have he : binaryExponent ((2147483630 : ℚ) * (r : ℚ) / 2147483648) < 30 := by
      rw [← zpow_lt_zpow_iff_right₀ (by norm_num : (1 : ℚ) < 2)]
      have : (2147483630 : ℚ) * 1073741833 / 2147483648 < (2 : ℚ) ^ (30 : Int) := by norm_num
      linarith
    have hulp : (2 : ℚ) ^ (binaryExponent ((2147483630 : ℚ) * (r : ℚ) / 2147483648) - 53)
        ≤ (2 : ℚ) ^ (-24 : Int) :=
      zpow_le_zpow_right₀ (by norm_num) (by omega)
    have h24 : (2 : ℚ) ^ (-24 : Int) = 1 / 16777216 := by norm_num [zpow_neg]
    rw [h24] at hulp
    rw [abs_sub_le_iff] at herr
    obtain ⟨e1, e2⟩ := herr
    constructor
    · have : (1 : ℚ) / 16777216 < (2147483630 : ℚ) / 2147483648 := by norm_num
      linarith
    · have : (2147483630 : ℚ) * 1073741833 / 2147483648 + 1 / 16777216 < 1073741824 := by
        norm_num
      linarith

/-- With `RAND_MAX = 2^31 - 1` and the range `0 .. 2147483629`, the draws from
`1073741834` on give a rounded product of at least `2^30 + 1`. -/
theorem product_high (r : Nat) (hr1 : 1073741834 ≤ r) (hr2 : r ≤ 2147483647) :
    1073741825 ≤ roundDouble ((2147483630 : ℚ) * ((r : ℚ) * (2 : ℚ) ^ (-((31 : Nat) : Int)))) ∧
      roundDouble ((2147483630 : ℚ) * ((r : ℚ) * (2 : ℚ) ^ (-((31 : Nat) : Int))))
        < 2147483647 := by
  have hq1 : (1073741834 : ℚ) ≤ (r : ℚ) := by exact_mod_cast hr1
  have hq2 : (r : ℚ) ≤ 2147483647 := by exact_mod_cast hr2
  have hx : (2147483630 : ℚ) * ((r : ℚ) * (2 : ℚ) ^ (-((31 : Nat) : Int)))
      = (2147483630 : ℚ) * (r : ℚ) / 2147483648 := by
    norm_num [zpow_neg]
    ring
  rw [hx]
  have hx1 : (2147483630 : ℚ) * 1073741834 / 2147483648
      ≤ (2147483630 : ℚ) * (r : ℚ) / 2147483648 := by
    rw [div_le_div_iff_of_pos_right (by norm_num)]
    linarith
  have hx2 : (2147483630 : ℚ) * (r : ℚ) / 2147483648
      ≤ (2147483630 : ℚ) * 2147483647 / 2147483648 := by
    rw [div_le_div_iff_of_pos_right (by norm_num)]
    linarith
  have hxpos : (0 : ℚ) < (2147483630 : ℚ) * (r : ℚ) / 2147483648 := by
    have : (0 : ℚ) < (2147483630 : ℚ) * 1073741834 / 2147483648 := by norm_num
    linarith
  have he : binaryExponent ((2147483630 : ℚ) * (r : ℚ) / 2147483648) = 30 := by
    apply binaryExponent_eq
    · rw [abs_of_pos hxpos]
      have : (2 : ℚ) ^ (30 : Int) ≤ (2147483630 : ℚ) * 1073741834 / 2147483648 := by norm_num
      linarith
    · rw [abs_of_pos hxpos]
      have : (2147483630 : ℚ) * 2147483647 / 2147483648 < (2 : ℚ) ^ ((30 : Int) + 1) := by
        norm_num
      linarith
  obtain ⟨⟨m, hm⟩, herr⟩ := roundDouble_spec _ (ne_of_gt hxpos)
  rw [he] at hm herr
  have hu : (2 : ℚ) ^ ((30 : Int) - 52) = 1 / 4194304 := by norm_num [zpow_neg]
  have hh : (2 : ℚ) ^ ((30 : Int) - 53) = 1 / 8388608 := by norm_num [zpow_neg]
  rw [hu] at hm
  rw [hh] at herr
  rw [abs_sub_le_iff] at herr
  obtain ⟨e1, e2⟩ := herr
  constructor
  · have hlow : (1073741825 : ℚ) - 1 / 4194304
        < (2147483630 : ℚ) * 1073741834 / 2147483648 - 1 / 8388608 := by norm_num
    have hm1 : (1073741825 : ℚ) - 1 / 4194304 < (m : ℚ) * (1 / 4194304) := by
      rw [← hm]
      linarith
    have hm2 : ((1073741825 * 4194304 - 1 : Int) : ℚ) < (m : ℚ) := by
      push_cast
      linarith
    have hm3 : (1073741825 * 4194304 - 1 : Int) < m := by exact_mod_cast hm2
    have hm4 : ((1073741825 * 4194304 : Int) : ℚ) ≤ (m : ℚ) := by
      exact_mod_cast (by omega : (1073741825 * 4194304 : Int) ≤ m)
    rw [hm]
    push_cast at hm4
    linarith
  · have : (2147483630 : ℚ) * 2147483647 / 2147483648 + 1 / 8388608 < 2147483647 := by norm_num
    linarith

/-- With `RAND_MAX = 2^31 - 1` and the range `0 .. 2147483629`, no draw gives
`2^30`: the results jump from `2^30 - 1` to `2^30 + 1`. -/
theorem getRandomNumberDouble_skips (r : Nat) (hr : r ≤ 2147483647) :
    getRandomNumberDouble 2147483647 0 2147483629 r ≠ 1073741824 := by
  rw [getRandomNumberDouble_pow2 2147483647 31 r 0 2147483629 (by norm_num) (by norm_num) hr]
  have hw : wrapInt (wrapInt (2147483629 - 0) + 1) = 2147483630 := by decide
  rw [hw]
  have hc : ((2147483630 : Int) : ℚ) = 2147483630 := by norm_num
  rw [hc]
  rcases Nat.lt_or_ge r 1073741834 with hlt | hge
  · obtain ⟨h1, h2⟩ := product_low r (by omega)
    rw [staticCastInt_of_nonneg _ h1]
    have f1 : 0 ≤ ⌊roundDouble ((2147483630 : ℚ) * ((r : ℚ) * (2 : ℚ) ^ (-((31 : Nat) : Int))))⌋ :=
      Int.floor_nonneg.mpr h1
    have f2 : ⌊roundDouble ((2147483630 : ℚ) * ((r : ℚ) * (2 : ℚ) ^ (-((31 : Nat) : Int))))⌋
        < 1073741824 := by
      rw [Int.floor_lt]
      exact_mod_cast h2
    have hin := wrapInt_of_range
      ⌊roundDouble ((2147483630 : ℚ) * ((r : ℚ) * (2 : ℚ) ^ (-((31 : Nat) : Int))))⌋
      (by omega) (by omega)
    rw [hin, zero_add, hin]
    omega
  · obtain ⟨h1, h2⟩ := product_high r hge hr
    rw [staticCastInt_of_nonneg _ (by linarith)]
    have f1 : 1073741825
        ≤ ⌊roundDouble ((2147483630 : ℚ) * ((r : ℚ) * (2 : ℚ) ^ (-((31 : Nat) : Int))))⌋ := by
      rw [Int.le_floor]
      exact_mod_cast h1
    have f2 : ⌊roundDouble ((2147483630 : ℚ) * ((r : ℚ) * (2 : ℚ) ^ (-((31 : Nat) : Int))))⌋
        < 2147483647 := by
      rw [Int.floor_lt]
      exact_mod_cast h2
    have hin := wrapInt_of_range
      ⌊roundDouble ((2147483630 : ℚ) * ((r : ℚ) * (2 : ℚ) ^ (-((31 : Nat) : Int))))⌋
      (by omega) (by omega)
    rw [hin, zero_add, hin]
    omega

/-- Claim C10, counterexample.  On a machine with `RAND_MAX = 2^31 - 1` the call
`getRandomNumber(0, 2147483629)` satisfies the claim's hypotheses
(`n = 2147483630 ≤ M = 2^31`), and the value `2^30` of the range is returned
for none of the `M` generator outputs, although `floor(M/n) = 1` and
`ceil(M/n) = 2`. -/
theorem getRandomNumber_not_uniform :
    (0 : Int) ≤ 2147483629 ∧
      (2147483629 : Int) - 0 + 1 ≤ ((2147483647 : Nat) : Int) + 1 ∧
      ((0 : Int) ≤ 1073741824 ∧ (1073741824 : Int) ≤ 2147483629) ∧
      (drawsGivingDouble 2147483647 0 2147483629 1073741824).card = 0 ∧
      ⌊(((2147483647 : Nat) : ℚ) + 1) / (((2147483629 - 0 + 1 : Int)) : ℚ)⌋₊ = 1 ∧
      ⌈(((2147483647 : Nat) : ℚ) + 1) / (((2147483629 - 0 + 1 : Int)) : ℚ)⌉₊ = 2 := by
  refine ⟨by norm_num, by norm_num, ⟨by norm_num, by norm_num⟩, ?_, ?_, ?_⟩
  · rw [Finset.card_eq_zero]
    unfold drawsGivingDouble
    rw [Finset.filter_eq_empty_iff]
    intro r hr
    rw [Finset.mem_range] at hr
    exact getRandomNumberDouble_skips r (by omega)
  · rw [Nat.floor_eq_iff (by norm_num)]
    norm_num
  · rw [Nat.ceil_eq_iff (by norm_num)]
    norm_num

/-- On a machine whose `RAND_MAX + 1` is a power of two, the result lies between
`min` and `max` for every range whose size `max - min + 1` does not overflow,
whatever the rounding of the `double` product. -/
theorem getRandomNumberDouble_bounds (RAND_MAX k r : Nat) (min max : Int)
    (hM : RAND_MAX + 1 = 2 ^ k) (hk : k ≤ 31) (hr : r ≤ RAND_MAX)
    (hlo : -2 ^ 31 ≤ min) (hhi : max ≤ 2 ^ 31 - 1) (hmin : min ≤ max)
    (hn : max - min + 1 < 2 ^ 31) :
    min ≤ getRandomNumberDouble RAND_MAX min max r ∧
      getRandomNumberDouble RAND_MAX min max r ≤ max := by
  rw [getRandomNumberDouble_pow2 RAND_MAX k r min max hM hk hr]
  have hw1 : wrapInt (max - min) = max - min := wrapInt_of_range _ (by omega) (by omega)
  have hw2 : wrapInt (max - min + 1) = max - min + 1 := wrapInt_of_range _ (by omega) (by omega)
  rw [hw1, hw2]
  have hc0 : (0 : ℚ) < (2 : ℚ) ^ (-(k : Int)) := zpow_pos (by norm_num) _
  have hc1 : (2 : ℚ) ^ (-(31 : Int)) ≤ (2 : ℚ) ^ (-(k : Int)) :=
    zpow_le_zpow_right₀ (by norm_num) (by omega)
  have hc31 : (2 : ℚ) ^ (-(31 : Int)) = 1 / 2147483648 := by norm_num [zpow_neg]
  rw [hc31] at hc1
  have hMc : ((RAND_MAX : ℚ) + 1) * (2 : ℚ) ^ (-(k : Int)) = 1 := by
    have : (RAND_MAX : ℚ) + 1 = (2 : ℚ) ^ (k : Int) := by
      rw [zpow_natCast]
      exact_mod_cast hM
    rw [this, ← zpow_add₀ (by norm_num : (2 : ℚ) ≠ 0)]
    simp
  have hrq : (r : ℚ) ≤ (RAND_MAX : ℚ) := by exact_mod_cast hr
  have hr0 : (0 : ℚ) ≤ (r : ℚ) := Nat.cast_nonneg r
  have hn1 : (1 : ℚ) ≤ ((max - min + 1 : Int) : ℚ) := by
    exact_mod_cast (by omega : (1 : Int) ≤ max - min + 1)
  have hrc : (r : ℚ) * (2 : ℚ) ^ (-(k : Int)) ≤ 1 - 1 / 2147483648 := by
    have : (r : ℚ) * (2 : ℚ) ^ (-(k : Int)) ≤ (RAND_MAX : ℚ) * (2 : ℚ) ^ (-(k : Int)) :=
      mul_le_mul_of_nonneg_right hrq hc0.le
    linarith
  have hrc0 : (0 : ℚ) ≤ (r : ℚ) * (2 : ℚ) ^ (-(k : Int)) := mul_nonneg hr0 hc0.le
  have hx0 : (0 : ℚ) ≤ ((max - min + 1 : Int) : ℚ) * ((r : ℚ) * (2 : ℚ) ^ (-(k : Int))) :=
    mul_nonneg (by linarith) hrc0
  have hx1 : ((max - min + 1 : Int) : ℚ) * ((r : ℚ) * (2 : ℚ) ^ (-(k : Int)))
      ≤ ((max - min + 1 : Int) : ℚ) * (1 - 1 / 2147483648) :=
    mul_le_mul_of_nonneg_left hrc (by linarith)
  have hy : 0 ≤ roundDouble (((max - min + 1 : Int) : ℚ) * ((r : ℚ) * (2 : ℚ) ^ (-(k : Int)))) ∧
      roundDouble (((max - min + 1 : Int) : ℚ) * ((r : ℚ) * (2 : ℚ) ^ (-(k : Int))))
        < ((max - min + 1 : Int) : ℚ) := by
    generalize ((max - min + 1 : Int) : ℚ) * ((r : ℚ) * (2 : ℚ) ^ (-(k : Int))) = x at hx0 hx1
    rcases eq_or_lt_of_le hx0 with h0 | hpos
    · rw [← h0, roundDouble_zero]
      exact ⟨le_refl _, by linarith⟩
    · obtain ⟨he1, _⟩ := binaryExponent_spec x (ne_of_gt hpos)
      obtain ⟨_, herr⟩ := roundDouble_spec x (ne_of_gt hpos)
      rw [abs_of_pos hpos] at he1
      have hulp : (2 : ℚ) ^ (binaryExponent x - 53) = (2 : ℚ) ^ (binaryExponent x) / 9007199254740992 := by
        rw [zpow_sub₀ (by norm_num : (2 : ℚ) ≠ 0)]
        norm_num
      rw [hulp, abs_sub_le_iff] at herr
      obtain ⟨e1, e2⟩ := herr
      have hdiv : (2 : ℚ) ^ (binaryExponent x) / 9007199254740992 ≤ x / 9007199254740992 := by
        rw [div_le_div_iff_of_pos_right (by norm_num)]
        exact he1
      constructor
      · have : x / 9007199254740992 ≤ x := by
          rw [div_le_iff₀ (by norm_num)]
          linarith
        linarith
      · have h3 : x + x / 9007199254740992
            ≤ ((max - min + 1 : Int) : ℚ) * (1 - 1 / 2147483648)
              + ((max - min + 1 : Int) : ℚ) * (1 - 1 / 2147483648) / 9007199254740992 := by
          have : x / 9007199254740992
              ≤ ((max - min + 1 : Int) : ℚ) * (1 - 1 / 2147483648) / 9007199254740992 := by
            rw [div_le_div_iff_of_pos_right (by norm_num)]
            exact hx1
          linarith
        have h4 : ((max - min + 1 : Int) : ℚ) * (1 - 1 / 2147483648)
              + ((max - min + 1 : Int) : ℚ) * (1 - 1 / 2147483648) / 9007199254740992
            < ((max - min + 1 : Int) : ℚ) := by
          have : ((max - min + 1 : Int) : ℚ) * (1 - 1 / 2147483648)
              + ((max - min + 1 : Int) : ℚ) * (1 - 1 / 2147483648) / 9007199254740992
              = ((max - min + 1 : Int) : ℚ)
                - ((max - min + 1 : Int) : ℚ) * (4194303 / 9007199254740992
                    + 1 / (2147483648 * 9007199254740992)) := by
            ring
          rw [this]
          have : (0 : ℚ) < ((max - min + 1 : Int) : ℚ) * (4194303 / 9007199254740992
                    + 1 / (2147483648 * 9007199254740992)) :=
            mul_pos (by linarith) (by norm_num)
          linarith
        linarith
  obtain ⟨y0, y1⟩ := hy
  rw [staticCastInt_of_nonneg _ y0]
  have f1 : 0 ≤ ⌊roundDouble (((max - min + 1 : Int) : ℚ) * ((r : ℚ) * (2 : ℚ) ^ (-(k : Int))))⌋ :=
    Int.floor_nonneg.mpr y0
  have f2 : ⌊roundDouble (((max - min + 1 : Int) : ℚ) * ((r : ℚ) * (2 : ℚ) ^ (-(k : Int))))⌋
      < max - min + 1 := by
    rw [Int.floor_lt]
    exact y1
  have hin := wrapInt_of_range
    ⌊roundDouble (((max - min + 1 : Int) : ℚ) * ((r : ℚ) * (2 : ℚ) ^ (-(k : Int))))⌋
    (by omega) (by omega)
  rw [hin, wrapInt_of_range _ (by omega) (by omega)]
  constructor <;> omega

/-- The program's two calls, `getRandomNumber(0, 1)` and
`getRandomNumber(0, MAX_TYPES - 1)`, give the same result in machine arithmetic
and in exact arithmetic when `RAND_MAX + 1` is a power of two. -/
theorem getRandomNumberDouble_calls (RAND_MAX k r : Nat)
    (hM : RAND_MAX + 1 = 2 ^ k) (hk : k ≤ 31) (hr : r ≤ RAND_MAX) :
    getRandomNumberDouble RAND_MAX 0 1 r = getRandomNumber RAND_MAX 0 1 r ∧
      getRandomNumberDouble RAND_MAX 0 2 r = getRandomNumber RAND_MAX 0 2 r := by
  have hpow : (2 : Nat) ^ k ≤ 2 ^ 31 := Nat.pow_le_pow_right (by norm_num) hk
  have hR : (RAND_MAX : Int) < 2147483648 := by
    have : RAND_MAX < 2147483648 := by
      have h31 : (2 : Nat) ^ 31 = 2147483648 := by norm_num
      omega
    exact_mod_cast this
  constructor
  · exact getRandomNumberDouble_eq RAND_MAX k r 0 1 hM hk hr (by norm_num) (by norm_num)
      (by norm_num) (by norm_num) (by norm_num; omega)
  · exact getRandomNumberDouble_eq RAND_MAX k r 0 2 hM hk hr (by norm_num) (by norm_num)
      (by norm_num) (by norm_num) (by norm_num; omega)

/-- Claim C9.  The code does not keep its documented contract ("between min and
max (inclusive)", "assumes max - min <= RAND_MAX") on a machine whose `RAND_MAX`
is `2^31 - 1`: the call `getRandomNumber(0, 2147483647)` meets the assumption,
and for the generator output `2147483647` the computation of `max - min + 1`
overflows and the value returned, `-2147483647`, is below `min`. -/
theorem getRandomNumber_overflow :
    (0 : Int) ≤ 2147483647 ∧
      (2147483647 : Int) - 0 ≤ ((2147483647 : Nat) : Int) ∧
      (2147483647 : Nat) ≤ 2147483647 ∧
      getRandomNumberDouble 2147483647 0 2147483647 2147483647 = -2147483647 ∧
      ¬ ((0 : Int) ≤ getRandomNumberDouble 2147483647 0 2147483647 2147483647 ∧
          getRandomNumberDouble 2147483647 0 2147483647 2147483647 ≤ 2147483647) := by
  refine ⟨by norm_num, by norm_num, le_refl _, getRandomNumberDouble_wraps, ?_⟩
  rw [getRandomNumberDouble_wraps]
  norm_num

/-- Claim C10, as amended.  On a machine whose `RAND_MAX + 1 = M` is a power of
two at most `2^31`, for 32-bit `min <= max` with `n = max - min + 1 <= M` and
`n * RAND_MAX < 2^53` (so that no `double` operation rounds and no `int`
overflows), every value `v` between `min` and `max` is returned on exactly
`floor(M / n)` or `ceil(M / n)` of the `M` generator outputs, and on exactly
`M / n` of them when `n` divides `M`; and when `M` is even the escape test
`getRandomNumber(0, 1)` succeeds on exactly half of the outputs. -/
theorem getRandomNumber_uniform (RAND_MAX k : Nat) (min max v : Int)
    (hM : RAND_MAX + 1 = 2 ^ k) (hk : k ≤ 31)
    (hlo : -2 ^ 31 ≤ min) (hhi : max ≤ 2 ^ 31 - 1)
    (hmin : min ≤ max) (hspan : max - min + 1 ≤ (RAND_MAX : Int) + 1)
    (hexact : (max - min + 1) * (RAND_MAX : Int) < 2 ^ 53)
    (hv : min ≤ v ∧ v ≤ max) :
    ((drawsGivingDouble RAND_MAX min max v).card
        = ⌊((RAND_MAX : ℚ) + 1) / ((max - min + 1 : Int) : ℚ)⌋₊ ∨
      (drawsGivingDouble RAND_MAX min max v).card
        = ⌈((RAND_MAX : ℚ) + 1) / ((max - min + 1 : Int) : ℚ)⌉₊) ∧
    ((max - min + 1) ∣ ((RAND_MAX : Int) + 1) →
      ((drawsGivingDouble RAND_MAX min max v).card : Int)
        = ((RAND_MAX : Int) + 1) / (max - min + 1)) ∧
    (2 ∣ RAND_MAX + 1 → (drawsEscapingDouble RAND_MAX).card = (RAND_MAX + 1) / 2) := by
  have hpow : (2 : Nat) ^ k ≤ 2 ^ 31 := Nat.pow_le_pow_right (by norm_num) hk
  have hR : (RAND_MAX : Int) < 2147483648 := by
    have : RAND_MAX < 2147483648 := by
      have h31 : (2 : Nat) ^ 31 = 2147483648 := by norm_num
      omega
    exact_mod_cast this
  have hn : max - min + 1 < 2 ^ 31 := by
    by_contra hge
    have h1 : (2 : Int) ^ 31 ≤ max - min + 1 := by omega
    have h2 : (RAND_MAX : Int) = 2147483647 := by omega
    rw [h2] at hexact
    have : (2 : Int) ^ 31 * 2147483647 ≤ (max - min + 1) * 2147483647 :=
      mul_le_mul_of_nonneg_right h1 (by norm_num)
    norm_num at this hexact
    omega
  have hgiv : drawsGivingDouble RAND_MAX min max v = drawsGiving RAND_MAX min max v := by
    unfold drawsGivingDouble drawsGiving
    apply Finset.filter_congr
    intro r hr
    have hr' : r ≤ RAND_MAX := by
      have := Finset.mem_range.mp hr
      omega
    rw [getRandomNumberDouble_eq RAND_MAX k r min max hM hk hr' hlo hhi hmin hn hexact]
  have hesc : drawsEscapingDouble RAND_MAX = drawsEscaping RAND_MAX := by
    unfold drawsEscapingDouble drawsEscaping
    apply Finset.filter_congr
    intro r hr
    have hr' : r ≤ RAND_MAX := by
      have := Finset.mem_range.mp hr
      omega
    rw [(getRandomNumberDouble_calls RAND_MAX k r hM hk hr').1]
  rw [hgiv, hesc]
  exact drawsGiving_card RAND_MAX min max v hmin hv

theorem getRandomNumber_uniform_witness :
    32767 + 1 = 2 ^ 15 ∧ 15 ≤ 31 ∧ (-2 ^ 31 : Int) ≤ 0 ∧ (2 : Int) ≤ 2 ^ 31 - 1 ∧
    (0 : Int) ≤ 2 ∧ (2 : Int) - 0 + 1 ≤ ((32767 : Nat) : Int) + 1 ∧
    ((2 : Int) - 0 + 1) * ((32767 : Nat) : Int) < 2 ^ 53 ∧
    ((0 : Int) ≤ 1 ∧ (1 : Int) ≤ 2) ∧
    ((drawsGivingDouble 32767 0 2 1).card
        = ⌊(((32767 : Nat) : ℚ) + 1) / (((2 : Int) - 0 + 1 : Int) : ℚ)⌋₊ ∨
      (drawsGivingDouble 32767 0 2 1).card
        = ⌈(((32767 : Nat) : ℚ) + 1) / (((2 : Int) - 0 + 1 : Int) : ℚ)⌉₊) ∧
    (((2 : Int) - 0 + 1) ∣ (((32767 : Nat) : Int) + 1) →
      ((drawsGivingDouble 32767 0 2 1).card : Int)
        = (((32767 : Nat) : Int) + 1) / ((2 : Int) - 0 + 1)) ∧
    (2 ∣ 32767 + 1 → (drawsEscapingDouble 32767).card = (32767 + 1) / 2) :=
  ⟨by decide, by decide, by decide, by decide, by decide, by decide, by decide,
    ⟨by decide, by decide⟩,
    getRandomNumber_uniform 32767 15 0 2 1 (by decide) (by decide) (by decide) (by decide)
      (by decide) (by decide) (by decide) ⟨by decide, by decide⟩⟩

end FightMonster
